import Mathlib

/-!
Bucket provisioning of the managed Velero operator.

A shallow embedding of `pkg/controller/velero/gcs.go` (`provisionStorage`,
`generateBucketName`), `pkg/gcs/gcs.go` (`DoesBucketExist`) and
`pkg/storage/storage.go` (`NewDriver`).

The storage provider, the status writer, the random source and the clock are
external collaborators.  They are passed in as an `Env W`: a record of
operations over an arbitrary world state `W`, each returning its answer
together with the next world.  Every theorem quantifies over all such
environments, so it covers every combination of provider and persistence
outcomes.  The embedding also records the external calls of a pass, in order
and with their arguments.
-/

namespace Velero

/-! ## Data model -/

/-- Go `error` values.  `ErrBucketNotExist` is the sentinel
`gstorage.ErrBucketNotExist`; `provider` is any other error value a client call
returns (HTTP status and text); `errorf` is a value built by `fmt.Errorf`.
A nil `error` is `none : Option GoError`. -/
inductive GoError where
  | ErrBucketNotExist : GoError
  | provider (code : Nat) (msg : String) : GoError
  | errorf (msg : String) : GoError
  deriving DecidableEq, Repr

/-- The text of an error: the method `Error()`. -/
def GoError.Error : GoError → String
  | .ErrBucketNotExist => "storage: bucket doesn't exist"
  | .provider _ msg => msg
  | .errorf msg => msg

/-- Timestamps (`metav1.Time`), as a count of clock ticks. -/
abbrev Time := Nat

/-- Modelled from the spec: the type of `instance.Status.S3Bucket` is declared
in `pkg/apis/managed/v1alpha1`, which is not among the sources.  The three
fields are the ones of the spec's `BucketStatus`, and the ones the code
reads and writes. -/
structure S3Bucket where
  Name : String
  Provisioned : Bool
  LastSyncTimestamp : Option Time
  deriving DecidableEq, Repr

/-- The fields of `gstorage.BucketAttrs` that the code reads or writes:
`Location` and `UniformBucketLevelAccess.Enabled`. -/
structure BucketAttrs where
  Location : String
  UniformBucketLevelAccess : Bool
  deriving DecidableEq, Repr

/-- The field of `gstorage.BucketAttrsToUpdate` that the code sets
(`nil` pointer is `none`). -/
structure BucketAttrsToUpdate where
  UniformBucketLevelAccess : Option Bool
  deriving DecidableEq, Repr

/-- The fields of `platformStatus.GCP` that the code reads.  The pointer
`platformStatus.GCP` is dereferenced on entry of `provisionStorage` (line 31),
so a pass is an execution in which it is not nil. -/
structure GCPPlatformStatus where
  ProjectID : String
  Region : String
  deriving DecidableEq, Repr

/-- The constant `bucketPrefix`. -/
def bucketPrefix : String := "managed-velero-backups-"

/-- The variable `UniformBucketLevelAccessEnabled`: the flag `Enabled` of
`gstorage.UniformBucketLevelAccess{Enabled: true}`. -/
def UniformBucketLevelAccessEnabled : Bool := true

/-! ## External collaborators -/

/-- The external operations a pass can perform, over a world state `W`.
`Attrs`, `Create` and `Update` are the methods of the bucket handle
`gcsClient.Bucket(name)`, with the bucket's name as first argument; `Update`
returns the new attributes as well, which the code discards.
`uuidNew` is `uuid.New().String()` and `now` is `time.Now()`. -/
structure Env (W : Type) where
  uuidNew : W → String × W
  Attrs : String → W → Except GoError BucketAttrs × W
  Create : String → String → BucketAttrs → W → Option GoError × W
  Update : String → BucketAttrsToUpdate → W → Option GoError × W
  /-- Modelled from the spec: `r.statusUpdate` is a method of this repository
  that is not among the sources; the spec gives `Persist(status) -> error`. -/
  statusUpdate : S3Bucket → W → Option GoError × W
  now : W → Time × W

/-- An external call, with its arguments. -/
inductive Call where
  | Attrs (bucket : String) : Call
  | Create (bucket : String) (projectID : String) (attrs : BucketAttrs) : Call
  | Update (bucket : String) (uattrs : BucketAttrsToUpdate) : Call
  | statusUpdate (status : S3Bucket) : Call
  deriving DecidableEq, Repr

/-- Whether a call is a `Create`. -/
def Call.isCreate : Call → Bool
  | .Create _ _ _ => true
  | _ => false

/-- Whether a call is an `Update`. -/
def Call.isUpdate : Call → Bool
  | .Update _ _ => true
  | _ => false

/-- Whether a call is an attribute lookup. -/
def Call.isAttrs : Call → Bool
  | .Attrs _ => true
  | _ => false

/-- Whether a call is a call of the status writer. -/
def Call.isStatusUpdate : Call → Bool
  | .statusUpdate _ => true
  | _ => false

/-- The world together with the log of the calls made so far in the pass. -/
structure Sys (W : Type) where
  world : W
  calls : List Call

/-- The call `gcsClient.Bucket(name).Attrs(ctx)`, logged. -/
def Sys.Attrs {W : Type} (env : Env W) (name : String) (s : Sys W) :
    Except GoError BucketAttrs × Sys W :=
  ((env.Attrs name s.world).1,
   { world := (env.Attrs name s.world).2, calls := s.calls ++ [Call.Attrs name] })

/-- The call `gcsClient.Bucket(name).Create(ctx, projectID, attrs)`, logged. -/
def Sys.Create {W : Type} (env : Env W) (name projectID : String) (attrs : BucketAttrs)
    (s : Sys W) : Option GoError × Sys W :=
  ((env.Create name projectID attrs s.world).1,
   { world := (env.Create name projectID attrs s.world).2,
     calls := s.calls ++ [Call.Create name projectID attrs] })

/-- The call `gcsClient.Bucket(name).Update(ctx, uattrs)`, logged. -/
def Sys.Update {W : Type} (env : Env W) (name : String) (uattrs : BucketAttrsToUpdate)
    (s : Sys W) : Option GoError × Sys W :=
  ((env.Update name uattrs s.world).1,
   { world := (env.Update name uattrs s.world).2,
     calls := s.calls ++ [Call.Update name uattrs] })

/-- The call `r.statusUpdate(reqLogger, instance)`, logged. -/
def Sys.statusUpdate {W : Type} (env : Env W) (status : S3Bucket) (s : Sys W) :
    Option GoError × Sys W :=
  ((env.statusUpdate status s.world).1,
   { world := (env.statusUpdate status s.world).2,
     calls := s.calls ++ [Call.statusUpdate status] })

/-! ## The code -/

/-- The function `DoesBucketExist` of `pkg/gcs/gcs.go`: one attribute lookup,
classified into `(true, nil)`, `(false, nil)` and `(false, err)`. -/
def DoesBucketExist {W : Type} (env : Env W) (bucketName : String) (s : Sys W) :
    (Bool × Option GoError) × Sys W :=
  match Sys.Attrs env bucketName s with
  | (.error err, s1) =>
    if err = GoError.ErrBucketNotExist then ((false, none), s1)
    else ((false, some err), s1)
  | (.ok _, s1) => ((true, none), s1)

/-- The function `generateBucketName`: the prefix followed by a fresh token. -/
def generateBucketName {W : Type} (env : Env W) (pfx : String) (s : Sys W) :
    String × Sys W :=
  (pfx ++ (env.uuidNew s.world).1, { world := (env.uuidNew s.world).2, calls := s.calls })

/-- What a pass leaves behind: the status record `instance.Status.S3Bucket`
(mutated in place through the pointer `instance`), the returned error (the
returned `reconcile.Result` is the zero value on every path), the world, and
the calls the pass made. -/
structure PassResult (W : Type) where
  status : S3Bucket
  err : Option GoError
  world : W
  calls : List Call

/-- The creation block of `provisionStorage`, lines 55 to 65: when the status
is not provisioned, one `Create` for the committed name with the platform's
region as location, uniform bucket-level access enabled and the platform's
project; otherwise nothing.  The result is the error of `Create`. -/
def createStep {W : Type} (env : Env W) (platformStatus : GCPPlatformStatus)
    (inst : S3Bucket) (s : Sys W) : Option GoError × Sys W :=
  if inst.Provisioned = false then
    Sys.Create env inst.Name platformStatus.ProjectID
      { Location := platformStatus.Region,
        UniformBucketLevelAccess := UniformBucketLevelAccessEnabled } s
  else (none, s)

/-- The enforcement block of `provisionStorage`, lines 87 to 89: when the
fetched attributes report uniform bucket-level access disabled, one `Update`
that enables it; otherwise nothing.  The result is the error of `Update`. -/
def enforceStep {W : Type} (env : Env W) (inst : S3Bucket) (bucketAttrs : BucketAttrs)
    (s : Sys W) : Option GoError × Sys W :=
  if bucketAttrs.UniformBucketLevelAccess = false then
    Sys.Update env inst.Name
      { UniformBucketLevelAccess := some UniformBucketLevelAccessEnabled } s
  else (none, s)

/-- The method `provisionStorage`, lines 29 to 118.  The logging calls have no
effect on the status, the result or the provider and are left out. -/
def provisionStorage {W : Type} (env : Env W) (platformStatus : GCPPlatformStatus)
    (inst : S3Bucket) (w : W) : PassResult W :=
  let s0 : Sys W := { world := w, calls := [] }
  -- We don't yet have a bucket name selected
  if inst.Name = "" then
    match generateBucketName env bucketPrefix s0 with
    | (proposedName, s1) =>
      match DoesBucketExist env proposedName s1 with
      | ((_, some err), s2) =>
        { status := inst, err := some err, world := s2.world, calls := s2.calls }
      | ((true, none), s2) =>
        { status := inst,
          err := some (GoError.errorf
            ("proposed bucket " ++ proposedName ++ " already exists, retrying")),
          world := s2.world, calls := s2.calls }
      | ((false, none), s2) =>
        let inst1 : S3Bucket := { inst with Name := proposedName, Provisioned := false }
        match Sys.statusUpdate env inst1 s2 with
        | (e, s3) => { status := inst1, err := e, world := s3.world, calls := s3.calls }
  else
    -- We have a bucket name, but haven't kicked off provisioning of the bucket yet
    match createStep env platformStatus inst s0 with
    | (some err, s1) =>
      { status := inst,
        err := some (GoError.errorf
          ("error occurred when creating bucket " ++ inst.Name ++ ": " ++ err.Error)),
        world := s1.world, calls := s1.calls }
    | (none, s1) =>
      -- Verify storage bucket exists
      match DoesBucketExist env inst.Name s1 with
      | ((_, some err), s2) =>
        { status := inst,
          err := some (GoError.errorf
            ("error occurred when verifying bucket " ++ inst.Name ++ ": " ++ err.Error)),
          world := s2.world, calls := s2.calls }
      | ((false, none), s2) =>
        let inst1 : S3Bucket := { inst with Provisioned := false }
        match Sys.statusUpdate env inst1 s2 with
        | (e, s3) => { status := inst1, err := e, world := s3.world, calls := s3.calls }
      | ((true, none), s2) =>
        match Sys.Attrs env inst.Name s2 with
        | (.error err, s3) =>
          { status := inst,
            err := some (GoError.errorf
              ("error occurred when retrieving bucket attributes " ++ inst.Name ++ ": "
                ++ err.Error)),
            world := s3.world, calls := s3.calls }
        | (.ok bucketAttrs, s3) =>
          -- Enforce UniformBucketLevelAccess setting on bucket
          match enforceStep env inst bucketAttrs s3 with
          | (some err, s4) =>
            { status := inst,
              err := some (GoError.errorf
                ("error occurred when enforcing UniformBucketLevelAccess to bucket "
                  ++ inst.Name ++ ": " ++ err.Error)),
              world := s4.world, calls := s4.calls }
          | (none, s4) =>
            let inst1 : S3Bucket :=
              { inst with Provisioned := true,
                          LastSyncTimestamp := some (env.now s4.world).1 }
            match Sys.statusUpdate env inst1 { s4 with world := (env.now s4.world).2 } with
            | (e, s5) => { status := inst1, err := e, world := s5.world, calls := s5.calls }

/-- A finite sequence of passes: each pass starts from the status record and
the world the previous one left. -/
def runPasses {W : Type} (env : Env W) (platformStatus : GCPPlatformStatus) :
    Nat → S3Bucket → W → S3Bucket × W
  | 0, inst, w => (inst, w)
  | n + 1, inst, w =>
    runPasses env platformStatus n (provisionStorage env platformStatus inst w).status
      (provisionStorage env platformStatus inst w).world

/-- The calls of a finite sequence of passes, in order. -/
def runCalls {W : Type} (env : Env W) (platformStatus : GCPPlatformStatus) :
    Nat → S3Bucket → W → List Call
  | 0, _, _ => []
  | n + 1, inst, w =>
    (provisionStorage env platformStatus inst w).calls ++
      runCalls env platformStatus n (provisionStorage env platformStatus inst w).status
        (provisionStorage env platformStatus inst w).world

/-- The pass from `inst` in the world `w` takes the converged path: the name
is committed, the creation block passes, the existence check on the committed
name answers true, the attributes are fetched without error, and uniform
bucket-level access is reported enabled or is enabled by an update that
succeeds.  `now` is the time the clock then gives. -/
def ConvergedPass {W : Type} (env : Env W) (platformStatus : GCPPlatformStatus)
    (inst : S3Bucket) (w : W) (now : Time) : Prop :=
  ∃ (s1 s2 s3 s4 : Sys W) (bucketAttrs : BucketAttrs),
    inst.Name ≠ "" ∧
    createStep env platformStatus inst ⟨w, []⟩ = (none, s1) ∧
    DoesBucketExist env inst.Name s1 = ((true, none), s2) ∧
    Sys.Attrs env inst.Name s2 = (.ok bucketAttrs, s3) ∧
    ((bucketAttrs.UniformBucketLevelAccess = true ∧ s4 = s3) ∨
     (bucketAttrs.UniformBucketLevelAccess = false ∧
      Sys.Update env inst.Name ⟨some UniformBucketLevelAccessEnabled⟩ s3 = (none, s4))) ∧
    now = (env.now s4.world).1

/-- The text `msg` contains the text `name`. -/
def mentions (msg name : String) : Prop := name.data <:+: msg.data

instance (msg name : String) : Decidable (mentions msg name) := by
  unfold mentions
  infer_instance

/-- A lowercase letter, `a` to `z`. -/
def isLowerLetter (c : Char) : Bool := decide (97 ≤ c.toNat) && decide (c.toNat ≤ 122)

/-- A decimal digit, `0` to `9`. -/
def isDigitChar (c : Char) : Bool := decide (48 ≤ c.toNat) && decide (c.toNat ≤ 57)

/-- A lowercase hexadecimal digit: `0` to `9` or `a` to `f`. -/
def isLowerHex (c : Char) : Bool :=
  isDigitChar c || (decide (97 ≤ c.toNat) && decide (c.toNat ≤ 102))

/-- The canonical textual form of a UUID, which `uuid.New().String()` gives:
36 characters, hyphens at the positions 8, 13, 18 and 23, and lowercase
hexadecimal digits elsewhere, that is groups of 8, 4, 4, 4 and 12 digits. -/
def isCanonicalUUID (token : String) : Bool :=
  token.data.length == 36 &&
  (List.range 36).all (fun i =>
    if i = 8 ∨ i = 13 ∨ i = 18 ∨ i = 23 then token.data.getD i ' ' == '-'
    else isLowerHex (token.data.getD i ' '))

/-! ## The driver factory, `pkg/storage/storage.go` -/

/-- The type `configv1.PlatformType`: a string. -/
abbrev PlatformType := String

/-- The constant `configv1.AWSPlatformType`. -/
def AWSPlatformType : PlatformType := "AWS"

/-- The constant `configv1.GCPPlatformType`. -/
def GCPPlatformType : PlatformType := "GCP"

/-- The field of `configv1.PlatformStatus` that `NewDriver` reads: `Type`. -/
structure PlatformStatus where
  platformType : PlatformType
  deriving DecidableEq, Repr

/-- The descriptor `configv1.InfrastructureStatus`: the name of the
infrastructure and the pointer `PlatformStatus`, which may be nil (`none`). -/
structure InfrastructureStatus where
  InfrastructureName : String
  PlatformStatus : Option PlatformStatus
  deriving DecidableEq, Repr

/-- Modelled from the spec: the driver types of `pkg/storage/s3` and
`pkg/storage/gcs` and their constructors `s3.NewDriver` and `gcs.NewDriver`
are not among the sources.  The spec has one driver variant for each supported
platform kind, built from the descriptor, which is a read-only input.  The
context and the client handle that the constructors get as well are opaque
and left out. -/
inductive Driver where
  | s3 (cfg : InfrastructureStatus) : Driver
  | gcs (cfg : InfrastructureStatus) : Driver
  deriving DecidableEq, Repr

/-- What a call of `NewDriver` that returns leaves behind: the returned driver
(`none` is the nil interface), the returned error, and the descriptor behind
the pointer `cfg` after the call. -/
structure DriverResult where
  driver : Option Driver
  err : Option GoError
  cfg : InfrastructureStatus
  deriving DecidableEq, Repr

/-- The function `NewDriver`, lines 23 to 38.  The outer `none` is the run-time
panic of reading `cfg.PlatformStatus.Type` through a nil pointer (line 28);
the body has no assignment through `cfg`. -/
def NewDriver (cfg : InfrastructureStatus) : Option DriverResult :=
  match cfg.PlatformStatus with
  | none => none
  | some platformStatus =>
    if platformStatus.platformType = AWSPlatformType then
      some { driver := some (Driver.s3 cfg), err := none, cfg := cfg }
    else if platformStatus.platformType = GCPPlatformType then
      some { driver := some (Driver.gcs cfg), err := none, cfg := cfg }
    else
      some { driver := none, err := some (GoError.errorf "unable to determine platform"),
             cfg := cfg }

/-! ## Test doubles -/

/-- An environment over the trivial world that gives the same answers at every
call: the token, the answer of every attribute lookup, the results of
creation, update and persistence, and the time. -/
def fixedEnv (token : String) (attrs : Except GoError BucketAttrs)
    (create update persist : Option GoError) (t : Time) : Env Unit where
  uuidNew := fun w => (token, w)
  Attrs := fun _ w => (attrs, w)
  Create := fun _ _ _ w => (create, w)
  Update := fun _ _ w => (update, w)
  statusUpdate := fun _ w => (persist, w)
  now := fun w => (t, w)

/-- The state of an in-memory provider: the buckets with their attributes, the
token the random source gives, the clock, and the last status persisted. -/
structure MemWorld where
  buckets : List (String × BucketAttrs)
  token : String
  clock : Time
  persisted : Option S3Bucket
  deriving DecidableEq, Repr

/-- The error a creation gets for a bucket that exists already (HTTP 409). -/
def errAlreadyOwned : GoError :=
  GoError.provider 409
    "googleapi: Error 409: You already own this bucket. Please select another name., conflict"

/-- The attributes of the named bucket, if it is there. -/
def MemWorld.find (w : MemWorld) (name : String) : Option BucketAttrs :=
  (w.buckets.find? (fun b => b.1 == name)).map (fun b => b.2)

/-- An in-memory provider without transient failures: a lookup fails only
with the bucket-not-exist error, creation fails only when the bucket exists
already, the bucket exists after creation, updates of an existing bucket and
persistence succeed. -/
def memEnv : Env MemWorld where
  uuidNew := fun w => (w.token, w)
  Attrs := fun name w =>
    match w.find name with
    | some a => (.ok a, w)
    | none => (.error GoError.ErrBucketNotExist, w)
  Create := fun name _ attrs w =>
    match w.find name with
    | some _ => (some errAlreadyOwned, w)
    | none => (none, { w with buckets := (name, attrs) :: w.buckets })
  Update := fun name uattrs w =>
    match w.find name with
    | some _ =>
      (none, { w with buckets := w.buckets.map (fun b =>
        if b.1 == name then
          (b.1, { b.2 with UniformBucketLevelAccess :=
            uattrs.UniformBucketLevelAccess.getD b.2.UniformBucketLevelAccess })
        else b) })
    | none => (some GoError.ErrBucketNotExist, w)
  statusUpdate := fun status w => (none, { w with persisted := some status })
  now := fun w => (w.clock, { w with clock := w.clock + 1 })

/-- An environment whose world is the queue of the answers the attribute
lookups get, one for each lookup in turn (bucket-not-exist once the queue is
empty); the other answers are the same at every call. -/
def queueEnv (token : String) (create update persist : Option GoError) (t : Time) :
    Env (List (Except GoError BucketAttrs)) where
  uuidNew := fun w => (token, w)
  Attrs := fun _ w =>
    match w with
    | [] => (.error GoError.ErrBucketNotExist, [])
    | answer :: rest => (answer, rest)
  Create := fun _ _ _ w => (create, w)
  Update := fun _ _ w => (update, w)
  statusUpdate := fun _ w => (persist, w)
  now := fun w => (t, w)

/-- The platform used in the examples. -/
def gcpExample : GCPPlatformStatus := { ProjectID := "proj", Region := "us-east1" }

/-! ## General facts about a pass -/

/-- A pass that starts with a committed name leaves the name as it is. -/
theorem provisionStorage_keeps_name {W : Type} (env : Env W)
    (platformStatus : GCPPlatformStatus) (inst : S3Bucket) (w : W)
    (hname : inst.Name ≠ "") :
    (provisionStorage env platformStatus inst w).status.Name = inst.Name := by
  unfold provisionStorage
  simp only [hname, if_false]
  repeat' split
  all_goals rfl

/-- The existence check in terms of the lookup it makes: the classification of
the lookup's answer, the world the lookup leaves, and one logged call. -/
theorem DoesBucketExist_eq {W : Type} (env : Env W) (bucketName : String) (s : Sys W) :
    DoesBucketExist env bucketName s =
      ((match (env.Attrs bucketName s.world).1 with
        | .error err =>
          if err = GoError.ErrBucketNotExist then (false, none) else (false, some err)
        | .ok _ => (true, none)),
       { world := (env.Attrs bucketName s.world).2,
         calls := s.calls ++ [Call.Attrs bucketName] }) := by
  unfold DoesBucketExist Sys.Attrs
  cases h : (env.Attrs bucketName s.world).1 with
  | error e => by_cases he : e = GoError.ErrBucketNotExist <;> simp [he]
  | ok a => simp

/-- The log after the existence check: one lookup more. -/
theorem DoesBucketExist_calls {W : Type} (env : Env W) (bucketName : String) (s s1 : Sys W)
    (r : Bool × Option GoError) (h : DoesBucketExist env bucketName s = (r, s1)) :
    s1.calls = s.calls ++ [Call.Attrs bucketName] := by
  have := congrArg (fun p => p.2.calls) h
  simp only [DoesBucketExist_eq] at this
  exact this.symm

/-- The log after an attribute fetch: one lookup more. -/
theorem Sys.Attrs_calls {W : Type} (env : Env W) (name : String) (s s1 : Sys W)
    (r : Except GoError BucketAttrs) (h : Sys.Attrs env name s = (r, s1)) :
    s1.calls = s.calls ++ [Call.Attrs name] := by
  have := congrArg (fun p => p.2.calls) h
  exact this.symm

/-- The log after the creation block: one `Create` more when the status is not
provisioned, nothing more when it is. -/
theorem createStep_calls {W : Type} (env : Env W) (platformStatus : GCPPlatformStatus)
    (inst : S3Bucket) (s s1 : Sys W) (r : Option GoError)
    (h : createStep env platformStatus inst s = (r, s1)) :
    s1.calls = s.calls ++
      (if inst.Provisioned = false then
        [Call.Create inst.Name platformStatus.ProjectID
          ⟨platformStatus.Region, UniformBucketLevelAccessEnabled⟩]
       else []) := by
  have := congrArg (fun p => p.2.calls) h
  unfold createStep at this
  by_cases hp : inst.Provisioned = false
  · simp only [hp, if_true, Sys.Create] at this
    simp only [hp, if_true]
    exact this.symm
  · rw [if_neg hp] at this
    rw [if_neg hp, List.append_nil]
    exact this.symm

/-- The log after the enforcement block: one `Update` more when the fetched
attributes report uniform bucket-level access disabled, nothing more when
they report it enabled. -/
theorem enforceStep_calls {W : Type} (env : Env W) (inst : S3Bucket)
    (bucketAttrs : BucketAttrs) (s s1 : Sys W) (r : Option GoError)
    (h : enforceStep env inst bucketAttrs s = (r, s1)) :
    s1.calls = s.calls ++
      (if bucketAttrs.UniformBucketLevelAccess = false then
        [Call.Update inst.Name ⟨some UniformBucketLevelAccessEnabled⟩]
       else []) := by
  have := congrArg (fun p => p.2.calls) h
  unfold enforceStep at this
  by_cases hp : bucketAttrs.UniformBucketLevelAccess = false
  · simp only [hp, if_true, Sys.Update] at this
    simp only [hp, if_true]
    exact this.symm
  · rw [if_neg hp] at this
    rw [if_neg hp, List.append_nil]
    exact this.symm

/-- The result of a pass whose enforcement block fails. -/
theorem provisionStorage_enforce_failed {W : Type} (env : Env W)
    (platformStatus : GCPPlatformStatus) (inst : S3Bucket) (w : W)
    (s1 s2 s3 s4 : Sys W) (bucketAttrs : BucketAttrs) (e : GoError)
    (hname : inst.Name ≠ "")
    (hcreated : createStep env platformStatus inst ⟨w, []⟩ = (none, s1))
    (hexists : DoesBucketExist env inst.Name s1 = ((true, none), s2))
    (hattrs : Sys.Attrs env inst.Name s2 = (.ok bucketAttrs, s3))
    (henforce : enforceStep env inst bucketAttrs s3 = (some e, s4)) :
    provisionStorage env platformStatus inst w =
      { status := inst,
        err := some (GoError.errorf
          ("error occurred when enforcing UniformBucketLevelAccess to bucket "
            ++ inst.Name ++ ": " ++ e.Error)),
        world := s4.world, calls := s4.calls } := by
  unfold provisionStorage
  simp only [hname, if_false, hcreated, hexists, hattrs, henforce]

/-- The result of a pass that gets through the enforcement block: the
converged commit. -/
theorem provisionStorage_converged {W : Type} (env : Env W)
    (platformStatus : GCPPlatformStatus) (inst : S3Bucket) (w : W)
    (s1 s2 s3 s4 : Sys W) (bucketAttrs : BucketAttrs)
    (hname : inst.Name ≠ "")
    (hcreated : createStep env platformStatus inst ⟨w, []⟩ = (none, s1))
    (hexists : DoesBucketExist env inst.Name s1 = ((true, none), s2))
    (hattrs : Sys.Attrs env inst.Name s2 = (.ok bucketAttrs, s3))
    (henforce : enforceStep env inst bucketAttrs s3 = (none, s4)) :
    provisionStorage env platformStatus inst w =
      { status := { inst with Provisioned := true,
                              LastSyncTimestamp := some (env.now s4.world).1 },
        err := (env.statusUpdate
          { inst with Provisioned := true, LastSyncTimestamp := some (env.now s4.world).1 }
          (env.now s4.world).2).1,
        world := (env.statusUpdate
          { inst with Provisioned := true, LastSyncTimestamp := some (env.now s4.world).1 }
          (env.now s4.world).2).2,
        calls := s4.calls ++
          [Call.statusUpdate { inst with Provisioned := true,
                                         LastSyncTimestamp := some (env.now s4.world).1 }] } := by
  unfold provisionStorage
  simp only [hname, if_false, hcreated, hexists, hattrs, henforce, Sys.statusUpdate]

/-- A pass from a provisioned status whose bucket is found with uniform
bucket-level access enabled: two lookups and the persist call, nothing else. -/
theorem provisionStorage_provisioned_hardened {W : Type} (env : Env W)
    (platformStatus : GCPPlatformStatus) (inst : S3Bucket) (w : W)
    (s1 s2 : Sys W) (bucketAttrs : BucketAttrs)
    (hname : inst.Name ≠ "") (hprov : inst.Provisioned = true)
    (hexists : DoesBucketExist env inst.Name ⟨w, []⟩ = ((true, none), s1))
    (hattrs : Sys.Attrs env inst.Name s1 = (.ok bucketAttrs, s2))
    (hubla : bucketAttrs.UniformBucketLevelAccess = true) :
    (provisionStorage env platformStatus inst w).calls =
      [Call.Attrs inst.Name, Call.Attrs inst.Name,
       Call.statusUpdate { inst with Provisioned := true,
                                     LastSyncTimestamp := some (env.now s2.world).1 }] ∧
    (provisionStorage env platformStatus inst w).status =
      { inst with Provisioned := true, LastSyncTimestamp := some (env.now s2.world).1 } := by
  have hc1 : s1.calls = [Call.Attrs inst.Name] := by
    have := congrArg (fun p => p.2.calls) hexists
    simp only [DoesBucketExist_eq] at this
    simpa using this.symm
  have hc2 : s2.calls = [Call.Attrs inst.Name, Call.Attrs inst.Name] := by
    have := congrArg (fun p => p.2.calls) hattrs
    simp only [Sys.Attrs, hc1] at this
    simpa using this.symm
  unfold provisionStorage
  simp [hname, createStep, hprov, hexists, hattrs, enforceStep, hubla, Sys.statusUpdate, hc2]

/-- The in-memory provider has no transient failures: a lookup finds the
bucket or fails with the bucket-not-exist error, a creation fails only when the
bucket is there already, the bucket is there after a successful creation, an
update of a bucket that is there succeeds, and persistence succeeds. -/
theorem memEnv_no_transient_failures (w : MemWorld) (name projectID : String)
    (attrs : BucketAttrs) (uattrs : BucketAttrsToUpdate) (status : S3Bucket) :
    ((memEnv.Attrs name w).1 = .error GoError.ErrBucketNotExist ∨
      ∃ a, (memEnv.Attrs name w).1 = .ok a ∧ w.find name = some a) ∧
    ((memEnv.Create name projectID attrs w).1 ≠ none ↔ ∃ a, w.find name = some a) ∧
    ((memEnv.Create name projectID attrs w).1 = none →
      (memEnv.Create name projectID attrs w).2.find name = some attrs) ∧
    ((∃ a, w.find name = some a) → (memEnv.Update name uattrs w).1 = none) ∧
    (memEnv.statusUpdate status w).1 = none := by
  cases h : w.find name with
  | none =>
    have h1 : (memEnv.Attrs name w) = (.error GoError.ErrBucketNotExist, w) := by
      simp only [memEnv, h]
    have h2 : (memEnv.Create name projectID attrs w) =
        (none, { w with buckets := (name, attrs) :: w.buckets }) := by
      simp only [memEnv, h]
    have h3 : (memEnv.statusUpdate status w).1 = none := rfl
    rw [h1, h2]
    simp [h3, MemWorld.find]
  | some a =>
    have h1 : (memEnv.Attrs name w) = (.ok a, w) := by
      simp only [memEnv, h]
    have h2 : (memEnv.Create name projectID attrs w) = (some errAlreadyOwned, w) := by
      simp only [memEnv, h]
    have h3 : (memEnv.statusUpdate status w).1 = none := rfl
    have h4 : (memEnv.Update name uattrs w).1 = none := by
      simp only [memEnv, h]
    rw [h1, h2]
    simp [h3, h4]

/-! ## The claims -/

/-- C1: name immutability.  A pass that starts with a non-empty name ends with
the same name, whatever the provider and the status writer answer, and so
does every finite sequence of passes. -/
theorem C1_name_immutable {W : Type} (env : Env W)
    (platformStatus : GCPPlatformStatus) (inst : S3Bucket) (w : W)
    (hname : inst.Name ≠ "") :
    (provisionStorage env platformStatus inst w).status.Name = inst.Name ∧
    ∀ n : Nat, (runPasses env platformStatus n inst w).1.Name = inst.Name := by
  refine ⟨provisionStorage_keeps_name env platformStatus inst w hname, ?_⟩
  intro n
  induction n generalizing inst w with
  | zero => rfl
  | succ n ih =>
    have h1 := provisionStorage_keeps_name env platformStatus inst w hname
    have h2 := ih (provisionStorage env platformStatus inst w).status
      (provisionStorage env platformStatus inst w).world (by rw [h1]; exact hname)
    simp only [runPasses]
    rw [h2, h1]

/-- C1 at a concrete input: one pass and three passes of the in-memory
provider from a committed name whose bucket is not there yet. -/
theorem C1_name_immutable_witness :
    (⟨"b", false, none⟩ : S3Bucket).Name ≠ "" ∧
    (provisionStorage memEnv gcpExample ⟨"b", false, none⟩
        ⟨[], "abc", 5, none⟩).status.Name = "b" ∧
    (runPasses memEnv gcpExample 3 ⟨"b", false, none⟩ ⟨[], "abc", 5, none⟩).1.Name = "b" :=
  ⟨by decide,
   (C1_name_immutable memEnv gcpExample ⟨"b", false, none⟩ ⟨[], "abc", 5, none⟩
      (by decide)).1,
   (C1_name_immutable memEnv gcpExample ⟨"b", false, none⟩ ⟨[], "abc", 5, none⟩
      (by decide)).2 3⟩

/-- C2: collision avoidance.  When a pass starts without a name and the
existence check on the generated candidate answers true, the pass returns an
error (the one that names the candidate), leaves the status as it was, so that
the name is still empty, and does not call the status writer. -/
theorem C2_collision_not_committed {W : Type} (env : Env W)
    (platformStatus : GCPPlatformStatus) (inst : S3Bucket) (w : W)
    (proposedName : String) (s1 s2 : Sys W)
    (hname : inst.Name = "")
    (hgen : generateBucketName env bucketPrefix ⟨w, []⟩ = (proposedName, s1))
    (hexists : DoesBucketExist env proposedName s1 = ((true, none), s2)) :
    (provisionStorage env platformStatus inst w).err ≠ none ∧
    (provisionStorage env platformStatus inst w).err =
      some (GoError.errorf ("proposed bucket " ++ proposedName ++ " already exists, retrying")) ∧
    (provisionStorage env platformStatus inst w).status = inst ∧
    (provisionStorage env platformStatus inst w).status.Name = "" ∧
    ∀ st : S3Bucket, Call.statusUpdate st ∉ (provisionStorage env platformStatus inst w).calls := by
  have hcalls : s2.calls = [Call.Attrs proposedName] := by
    have h1 : s1.calls = [] := by
      have := congrArg (fun p => p.2.calls) hgen
      simpa [generateBucketName] using this.symm
    have := congrArg (fun p => p.2.calls) hexists
    simp only [DoesBucketExist_eq, h1] at this
    simpa using this.symm
  unfold provisionStorage
  simp only [hname, if_true, hgen, hexists, hcalls]
  simp

/-- C2 at a concrete input: the in-memory provider already holds a bucket with
the name the pass proposes. -/
theorem C2_collision_not_committed_witness :
    (provisionStorage memEnv gcpExample ⟨"", false, none⟩
      ⟨[("managed-velero-backups-abc", ⟨"us-east1", true⟩)], "abc", 5, none⟩).err =
      some (GoError.errorf
        ("proposed bucket " ++ "managed-velero-backups-abc" ++ " already exists, retrying")) ∧
    (provisionStorage memEnv gcpExample ⟨"", false, none⟩
      ⟨[("managed-velero-backups-abc", ⟨"us-east1", true⟩)], "abc", 5, none⟩).status =
      ⟨"", false, none⟩ ∧
    Call.statusUpdate ⟨"managed-velero-backups-abc", false, none⟩ ∉
      (provisionStorage memEnv gcpExample ⟨"", false, none⟩
        ⟨[("managed-velero-backups-abc", ⟨"us-east1", true⟩)], "abc", 5, none⟩).calls :=
  have h := C2_collision_not_committed memEnv gcpExample ⟨"", false, none⟩
    ⟨[("managed-velero-backups-abc", ⟨"us-east1", true⟩)], "abc", 5, none⟩
    "managed-velero-backups-abc"
    ⟨⟨[("managed-velero-backups-abc", ⟨"us-east1", true⟩)], "abc", 5, none⟩, []⟩
    ⟨⟨[("managed-velero-backups-abc", ⟨"us-east1", true⟩)], "abc", 5, none⟩,
      [Call.Attrs "managed-velero-backups-abc"]⟩
    rfl rfl rfl
  ⟨h.2.1, h.2.2.1, h.2.2.2.2 ⟨"managed-velero-backups-abc", false, none⟩⟩

/-- C3, as the code has it: when a pass starts with a committed name, not
provisioned, and the creation call fails with any error, the one for a bucket
that exists already included, the pass returns that error wrapped with the
bucket's name, leaves the status as it was, and makes no other call: no
existence check follows. -/
theorem C3_create_error_returned {W : Type} (env : Env W)
    (platformStatus : GCPPlatformStatus) (inst : S3Bucket) (w : W)
    (e : GoError) (s1 : Sys W)
    (hname : inst.Name ≠ "") (hprov : inst.Provisioned = false)
    (hcreate : Sys.Create env inst.Name platformStatus.ProjectID
      ⟨platformStatus.Region, UniformBucketLevelAccessEnabled⟩ ⟨w, []⟩ = (some e, s1)) :
    (provisionStorage env platformStatus inst w).err =
      some (GoError.errorf
        ("error occurred when creating bucket " ++ inst.Name ++ ": " ++ e.Error)) ∧
    (provisionStorage env platformStatus inst w).status = inst ∧
    (provisionStorage env platformStatus inst w).calls =
      [Call.Create inst.Name platformStatus.ProjectID
        ⟨platformStatus.Region, UniformBucketLevelAccessEnabled⟩] ∧
    ∀ name : String, Call.Attrs name ∉ (provisionStorage env platformStatus inst w).calls := by
  have hcalls : s1.calls = [Call.Create inst.Name platformStatus.ProjectID
      ⟨platformStatus.Region, UniformBucketLevelAccessEnabled⟩] := by
    have := congrArg (fun p => p.2.calls) hcreate
    simpa [Sys.Create] using this.symm
  unfold provisionStorage
  simp only [hname, if_false, createStep, hprov, if_true, hcreate, hcalls]
  simp

/-- C3 at a concrete input: the provider answers every creation with an
internal error. -/
theorem C3_create_error_returned_witness :
    (provisionStorage (fixedEnv "abc" (.ok ⟨"us-east1", true⟩)
        (some (GoError.provider 500 "backend error")) none none 7)
      gcpExample ⟨"b", false, none⟩ ()).err =
      some (GoError.errorf "error occurred when creating bucket b: backend error") ∧
    (provisionStorage (fixedEnv "abc" (.ok ⟨"us-east1", true⟩)
        (some (GoError.provider 500 "backend error")) none none 7)
      gcpExample ⟨"b", false, none⟩ ()).calls =
      [Call.Create "b" "proj" ⟨"us-east1", true⟩] :=
  have h := C3_create_error_returned
    (fixedEnv "abc" (.ok ⟨"us-east1", true⟩) (some (GoError.provider 500 "backend error"))
      none none 7)
    gcpExample ⟨"b", false, none⟩ () (GoError.provider 500 "backend error")
    ⟨(), [Call.Create "b" "proj" ⟨"us-east1", true⟩]⟩ (by decide) rfl rfl
  ⟨h.1, h.2.2.1⟩

/-- C3 as stated fails: the in-memory provider holds the bucket `b` already, so
the creation call of a pass on the status `b`, not provisioned, fails with the
already-exists error; the pass returns that error, wrapped, and its only call
is the creation: no existence check on `b` is issued. -/
theorem C3_counterexample :
    (Sys.Create memEnv "b" "proj" ⟨"us-east1", true⟩
      ⟨⟨[("b", ⟨"us-east1", true⟩)], "abc", 5, none⟩, []⟩).1 = some errAlreadyOwned ∧
    (provisionStorage memEnv gcpExample ⟨"b", false, none⟩
      ⟨[("b", ⟨"us-east1", true⟩)], "abc", 5, none⟩).err =
      some (GoError.errorf
        ("error occurred when creating bucket b: " ++ errAlreadyOwned.Error)) ∧
    (provisionStorage memEnv gcpExample ⟨"b", false, none⟩
      ⟨[("b", ⟨"us-east1", true⟩)], "abc", 5, none⟩).calls =
      [Call.Create "b" "proj" ⟨"us-east1", true⟩] ∧
    Call.Attrs "b" ∉ (provisionStorage memEnv gcpExample ⟨"b", false, none⟩
      ⟨[("b", ⟨"us-east1", true⟩)], "abc", 5, none⟩).calls := by
  refine ⟨rfl, rfl, rfl, ?_⟩
  decide

/-- C4, as the code has it.  From a committed name, not provisioned: when the
creation call succeeds (the named bucket was absent), the existence check
then finds the bucket, the attributes are fetched, the hardening update, if
one is needed, succeeds and persistence succeeds, the pass returns no error
and ends with the flag `Provisioned` set and the same name.  When the
creation call fails, as it does for a bucket that is already there, the pass
returns an error and leaves the status as it was, not provisioned. -/
theorem C4_reentry_from_committed_name {W : Type} (env : Env W)
    (platformStatus : GCPPlatformStatus) (inst : S3Bucket) (w : W)
    (hname : inst.Name ≠ "") (hprov : inst.Provisioned = false) :
    (∀ (s1 s2 s3 s4 : Sys W) (bucketAttrs : BucketAttrs),
      Sys.Create env inst.Name platformStatus.ProjectID
        ⟨platformStatus.Region, UniformBucketLevelAccessEnabled⟩ ⟨w, []⟩ = (none, s1) →
      DoesBucketExist env inst.Name s1 = ((true, none), s2) →
      Sys.Attrs env inst.Name s2 = (.ok bucketAttrs, s3) →
      enforceStep env inst bucketAttrs s3 = (none, s4) →
      (env.statusUpdate
        { inst with Provisioned := true, LastSyncTimestamp := some (env.now s4.world).1 }
        (env.now s4.world).2).1 = none →
      (provisionStorage env platformStatus inst w).err = none ∧
      (provisionStorage env platformStatus inst w).status.Provisioned = true ∧
      (provisionStorage env platformStatus inst w).status.Name = inst.Name) ∧
    (∀ (e : GoError) (s1 : Sys W),
      Sys.Create env inst.Name platformStatus.ProjectID
        ⟨platformStatus.Region, UniformBucketLevelAccessEnabled⟩ ⟨w, []⟩ = (some e, s1) →
      (provisionStorage env platformStatus inst w).err ≠ none ∧
      (provisionStorage env platformStatus inst w).status = inst ∧
      (provisionStorage env platformStatus inst w).status.Provisioned = false) := by
  constructor
  · intro s1 s2 s3 s4 bucketAttrs hcreate hexists hattrs henforce hpersist
    unfold provisionStorage
    simp only [hname, if_false, createStep, hprov, if_true, hcreate, hexists, hattrs,
      henforce, Sys.statusUpdate, hpersist]
    simp
  · intro e s1 hcreate
    unfold provisionStorage
    simp only [hname, if_false, createStep, hprov, if_true, hcreate]
    simp [hprov]

/-- C4 at two concrete inputs of the in-memory provider, for the status `b`,
not provisioned: with no bucket the pass converges, with the bucket `b`
already there it returns an error and stays not provisioned. -/
theorem C4_reentry_from_committed_name_witness :
    ((provisionStorage memEnv gcpExample ⟨"b", false, none⟩ ⟨[], "abc", 5, none⟩).err = none ∧
     (provisionStorage memEnv gcpExample ⟨"b", false, none⟩
        ⟨[], "abc", 5, none⟩).status.Provisioned = true ∧
     (provisionStorage memEnv gcpExample ⟨"b", false, none⟩
        ⟨[], "abc", 5, none⟩).status.Name = "b") ∧
    ((provisionStorage memEnv gcpExample ⟨"b", false, none⟩
        ⟨[("b", ⟨"us-east1", true⟩)], "abc", 5, none⟩).err ≠ none ∧
     (provisionStorage memEnv gcpExample ⟨"b", false, none⟩
        ⟨[("b", ⟨"us-east1", true⟩)], "abc", 5, none⟩).status = ⟨"b", false, none⟩ ∧
     (provisionStorage memEnv gcpExample ⟨"b", false, none⟩
        ⟨[("b", ⟨"us-east1", true⟩)], "abc", 5, none⟩).status.Provisioned = false) :=
  ⟨(C4_reentry_from_committed_name memEnv gcpExample ⟨"b", false, none⟩ ⟨[], "abc", 5, none⟩
      (by decide) rfl).1
      ⟨⟨[("b", ⟨"us-east1", true⟩)], "abc", 5, none⟩, [Call.Create "b" "proj" ⟨"us-east1", true⟩]⟩
      ⟨⟨[("b", ⟨"us-east1", true⟩)], "abc", 5, none⟩,
        [Call.Create "b" "proj" ⟨"us-east1", true⟩, Call.Attrs "b"]⟩
      ⟨⟨[("b", ⟨"us-east1", true⟩)], "abc", 5, none⟩,
        [Call.Create "b" "proj" ⟨"us-east1", true⟩, Call.Attrs "b", Call.Attrs "b"]⟩
      ⟨⟨[("b", ⟨"us-east1", true⟩)], "abc", 5, none⟩,
        [Call.Create "b" "proj" ⟨"us-east1", true⟩, Call.Attrs "b", Call.Attrs "b"]⟩
      ⟨"us-east1", true⟩ rfl rfl rfl rfl rfl,
   (C4_reentry_from_committed_name memEnv gcpExample ⟨"b", false, none⟩
      ⟨[("b", ⟨"us-east1", true⟩)], "abc", 5, none⟩ (by decide) rfl).2 errAlreadyOwned
      ⟨⟨[("b", ⟨"us-east1", true⟩)], "abc", 5, none⟩, [Call.Create "b" "proj" ⟨"us-east1", true⟩]⟩
      rfl⟩

/-- C4 as stated fails.  The in-memory provider has no transient failures.  A
first pass on the status `b` created the bucket and was interrupted before the
status was persisted, which leaves the world below; the next pass from the
same status gets the already-exists error from the creation call, returns an
error and ends not provisioned. -/
theorem C4_counterexample :
    (memEnv.Create "b" "proj" ⟨"us-east1", true⟩ ⟨[], "abc", 5, none⟩).2 =
      ⟨[("b", ⟨"us-east1", true⟩)], "abc", 5, none⟩ ∧
    (provisionStorage memEnv gcpExample ⟨"b", false, none⟩
      ⟨[("b", ⟨"us-east1", true⟩)], "abc", 5, none⟩).status.Provisioned = false ∧
    (provisionStorage memEnv gcpExample ⟨"b", false, none⟩
      ⟨[("b", ⟨"us-east1", true⟩)], "abc", 5, none⟩).err =
      some (GoError.errorf
        ("error occurred when creating bucket b: " ++ errAlreadyOwned.Error)) := by
  refine ⟨rfl, rfl, rfl⟩

/-- C5: idempotence.  From a status with a name and the flag `Provisioned` set,
a pass in which the existence check answers true and the fetched attributes
report uniform bucket-level access enabled issues no `Create` and no `Update`
and ends with the same name and the flag set.  When the provider gives those
answers every time, any number of passes issues no `Create` and no `Update`
and ends with the same name and the flag set. -/
theorem C5_idempotent {W : Type} (env : Env W)
    (platformStatus : GCPPlatformStatus) (inst : S3Bucket) (w : W)
    (hname : inst.Name ≠ "") (hprov : inst.Provisioned = true) :
    (∀ (s1 s2 : Sys W) (bucketAttrs : BucketAttrs),
      DoesBucketExist env inst.Name ⟨w, []⟩ = ((true, none), s1) →
      Sys.Attrs env inst.Name s1 = (.ok bucketAttrs, s2) →
      bucketAttrs.UniformBucketLevelAccess = true →
      (∀ name projectID attrs,
        Call.Create name projectID attrs ∉ (provisionStorage env platformStatus inst w).calls) ∧
      (∀ name uattrs,
        Call.Update name uattrs ∉ (provisionStorage env platformStatus inst w).calls) ∧
      (provisionStorage env platformStatus inst w).status.Name = inst.Name ∧
      (provisionStorage env platformStatus inst w).status.Provisioned = true) ∧
    ((∀ w1 : W, ∃ bucketAttrs : BucketAttrs,
        (env.Attrs inst.Name w1).1 = .ok bucketAttrs ∧
        bucketAttrs.UniformBucketLevelAccess = true) →
      ∀ n : Nat,
        (∀ name projectID attrs,
          Call.Create name projectID attrs ∉ runCalls env platformStatus n inst w) ∧
        (∀ name uattrs, Call.Update name uattrs ∉ runCalls env platformStatus n inst w) ∧
        (runPasses env platformStatus n inst w).1.Name = inst.Name ∧
        (runPasses env platformStatus n inst w).1.Provisioned = true) := by
  constructor
  · intro s1 s2 bucketAttrs hexists hattrs hubla
    obtain ⟨hc, hs⟩ := provisionStorage_provisioned_hardened env platformStatus inst w s1 s2
      bucketAttrs hname hprov hexists hattrs hubla
    rw [hc, hs]
    simp
  · intro hall n
    induction n generalizing inst w with
    | zero => simp [runCalls, runPasses, hprov]
    | succ n ih =>
      obtain ⟨a1, ha1, _⟩ := hall w
      obtain ⟨a2, ha2, hu2⟩ := hall (env.Attrs inst.Name w).2
      have hexists : DoesBucketExist env inst.Name ⟨w, []⟩ =
          ((true, none), ⟨(env.Attrs inst.Name w).2, [] ++ [Call.Attrs inst.Name]⟩) := by
        rw [DoesBucketExist_eq]
        simp only [ha1]
      have hattrs : Sys.Attrs env inst.Name
          ⟨(env.Attrs inst.Name w).2, [] ++ [Call.Attrs inst.Name]⟩ =
          (.ok a2, ⟨(env.Attrs inst.Name (env.Attrs inst.Name w).2).2,
            ([] ++ [Call.Attrs inst.Name]) ++ [Call.Attrs inst.Name]⟩) := by
        simp only [Sys.Attrs, ha2]
      obtain ⟨hc, hs⟩ := provisionStorage_provisioned_hardened env platformStatus inst w _ _
        a2 hname hprov hexists hattrs hu2
      have hn : (provisionStorage env platformStatus inst w).status.Name = inst.Name := by
        rw [hs]
      have hp : (provisionStorage env platformStatus inst w).status.Provisioned = true := by
        rw [hs]
      have ih1 := ih (provisionStorage env platformStatus inst w).status
        (provisionStorage env platformStatus inst w).world (by rw [hn]; exact hname) hp
        (by rw [hn]; exact hall)
      simp only [runCalls, runPasses, List.mem_append, not_or]
      refine ⟨fun name projectID attrs => ⟨?_, ih1.1 name projectID attrs⟩,
        fun name uattrs => ⟨?_, ih1.2.1 name uattrs⟩, ?_, ih1.2.2.2⟩
      · rw [hc]; simp
      · rw [hc]; simp
      · rw [ih1.2.2.1, hn]

/-- C5 at a concrete input: the in-memory provider holds the bucket `b` with
uniform bucket-level access enabled, and the status is provisioned. -/
theorem C5_idempotent_witness :
    (provisionStorage memEnv gcpExample ⟨"b", true, some 3⟩
      ⟨[("b", ⟨"us-east1", true⟩)], "abc", 5, none⟩).calls =
      [Call.Attrs "b", Call.Attrs "b", Call.statusUpdate ⟨"b", true, some 5⟩] ∧
    (provisionStorage memEnv gcpExample ⟨"b", true, some 3⟩
      ⟨[("b", ⟨"us-east1", true⟩)], "abc", 5, none⟩).status.Name = "b" ∧
    (provisionStorage memEnv gcpExample ⟨"b", true, some 3⟩
      ⟨[("b", ⟨"us-east1", true⟩)], "abc", 5, none⟩).status.Provisioned = true ∧
    (runPasses (fixedEnv "abc" (.ok ⟨"us-east1", true⟩) none none none 7) gcpExample 4
      ⟨"b", true, some 3⟩ ()).1.Provisioned = true :=
  have h1 := (C5_idempotent memEnv gcpExample ⟨"b", true, some 3⟩
      ⟨[("b", ⟨"us-east1", true⟩)], "abc", 5, none⟩ (by decide) rfl).1
    ⟨⟨[("b", ⟨"us-east1", true⟩)], "abc", 5, none⟩, [Call.Attrs "b"]⟩
    ⟨⟨[("b", ⟨"us-east1", true⟩)], "abc", 5, none⟩, [Call.Attrs "b", Call.Attrs "b"]⟩
    ⟨"us-east1", true⟩ rfl rfl rfl
  have h2 := (C5_idempotent (fixedEnv "abc" (.ok ⟨"us-east1", true⟩) none none none 7)
      gcpExample ⟨"b", true, some 3⟩ () (by decide) rfl).2
    (fun _ => ⟨⟨"us-east1", true⟩, rfl, rfl⟩) 4
  ⟨rfl, h1.2.2.1, h1.2.2.2, h2.2.2.2⟩

/-- C6: hardening enforcement.  In a pass whose verification finds the bucket
and fetches its attributes, an `Update` is issued exactly when the fetched
attributes report uniform bucket-level access disabled, and it is the update
of the committed name that enables it.  When that update succeeds the flag
`Provisioned` is set at the end of the pass; when it fails the pass returns an
error and leaves the status as it was. -/
theorem C6_hardening_enforced {W : Type} (env : Env W)
    (platformStatus : GCPPlatformStatus) (inst : S3Bucket) (w : W)
    (s1 s2 s3 : Sys W) (bucketAttrs : BucketAttrs)
    (hname : inst.Name ≠ "")
    (hcreated : createStep env platformStatus inst ⟨w, []⟩ = (none, s1))
    (hexists : DoesBucketExist env inst.Name s1 = ((true, none), s2))
    (hattrs : Sys.Attrs env inst.Name s2 = (.ok bucketAttrs, s3)) :
    ((∃ name uattrs, Call.Update name uattrs ∈ (provisionStorage env platformStatus inst w).calls)
      ↔ bucketAttrs.UniformBucketLevelAccess = false) ∧
    (∀ name uattrs, Call.Update name uattrs ∈ (provisionStorage env platformStatus inst w).calls →
      name = inst.Name ∧ uattrs = ⟨some true⟩) ∧
    (∀ s4 : Sys W, bucketAttrs.UniformBucketLevelAccess = false →
      Sys.Update env inst.Name ⟨some UniformBucketLevelAccessEnabled⟩ s3 = (none, s4) →
      (provisionStorage env platformStatus inst w).status.Provisioned = true) ∧
    (∀ (s4 : Sys W) (e : GoError), bucketAttrs.UniformBucketLevelAccess = false →
      Sys.Update env inst.Name ⟨some UniformBucketLevelAccessEnabled⟩ s3 = (some e, s4) →
      (provisionStorage env platformStatus inst w).err ≠ none ∧
      (provisionStorage env platformStatus inst w).status = inst) := by
  have hc1 := createStep_calls env platformStatus inst _ s1 _ hcreated
  have hc2 := DoesBucketExist_calls env inst.Name s1 s2 _ hexists
  have hc3 := Sys.Attrs_calls env inst.Name s2 s3 _ hattrs
  have hc : ∀ name uattrs, Call.Update name uattrs ∉ s3.calls := by
    intro name uattrs
    rw [hc3, hc2, hc1]
    by_cases hp : inst.Provisioned = false <;> simp [hp]
  have hcalls : ∀ name uattrs,
      Call.Update name uattrs ∈ (provisionStorage env platformStatus inst w).calls ↔
      (bucketAttrs.UniformBucketLevelAccess = false ∧ name = inst.Name ∧
        uattrs = ⟨some true⟩) := by
    intro name uattrs
    have hno := hc name uattrs
    rcases hr : enforceStep env inst bucketAttrs s3 with ⟨_ | e, s4⟩
    · have hc4 := enforceStep_calls env inst bucketAttrs s3 s4 _ hr
      rw [provisionStorage_converged env platformStatus inst w s1 s2 s3 s4 bucketAttrs
        hname hcreated hexists hattrs hr]
      simp only [List.mem_append, hc4]
      by_cases hp : bucketAttrs.UniformBucketLevelAccess = false
      · simp [hp, hno, UniformBucketLevelAccessEnabled]
      · simp [hp, hno]
    · have hc4 := enforceStep_calls env inst bucketAttrs s3 s4 _ hr
      rw [provisionStorage_enforce_failed env platformStatus inst w s1 s2 s3 s4 bucketAttrs e
        hname hcreated hexists hattrs hr]
      simp only [List.mem_append, hc4]
      by_cases hp : bucketAttrs.UniformBucketLevelAccess = false
      · simp [hp, hno, UniformBucketLevelAccessEnabled]
      · simp [hp, hno]
  refine ⟨⟨?_, ?_⟩, ?_, ?_, ?_⟩
  · rintro ⟨name, uattrs, h⟩
    exact ((hcalls name uattrs).1 h).1
  · intro hp
    exact ⟨inst.Name, ⟨some true⟩, (hcalls _ _).2 ⟨hp, rfl, rfl⟩⟩
  · intro name uattrs h
    exact ((hcalls name uattrs).1 h).2
  · intro s4 hp hupd
    have he : enforceStep env inst bucketAttrs s3 = (none, s4) := by
      simp only [enforceStep, hp, if_true, hupd]
    rw [provisionStorage_converged env platformStatus inst w s1 s2 s3 s4 bucketAttrs
      hname hcreated hexists hattrs he]
  · intro s4 e hp hupd
    have he : enforceStep env inst bucketAttrs s3 = (some e, s4) := by
      simp only [enforceStep, hp, if_true, hupd]
    rw [provisionStorage_enforce_failed env platformStatus inst w s1 s2 s3 s4 bucketAttrs e
      hname hcreated hexists hattrs he]
    simp

/-- C6 at two concrete inputs.  The in-memory provider holds the bucket `b`
with uniform bucket-level access disabled: the pass issues the update and the
status is provisioned at its end.  A provider whose updates fail: the pass
returns an error and leaves the status as it was. -/
theorem C6_hardening_enforced_witness :
    (Call.Update "b" ⟨some true⟩ ∈ (provisionStorage memEnv gcpExample ⟨"b", true, none⟩
        ⟨[("b", ⟨"us-east1", false⟩)], "abc", 5, none⟩).calls ∧
     (provisionStorage memEnv gcpExample ⟨"b", true, none⟩
        ⟨[("b", ⟨"us-east1", false⟩)], "abc", 5, none⟩).status.Provisioned = true) ∧
    ((provisionStorage (fixedEnv "abc" (.ok ⟨"us-east1", false⟩) none
          (some (GoError.provider 503 "unavailable")) none 7)
        gcpExample ⟨"b", false, none⟩ ()).err ≠ none ∧
     (provisionStorage (fixedEnv "abc" (.ok ⟨"us-east1", false⟩) none
          (some (GoError.provider 503 "unavailable")) none 7)
        gcpExample ⟨"b", false, none⟩ ()).status = ⟨"b", false, none⟩) :=
  have h1 := C6_hardening_enforced memEnv gcpExample ⟨"b", true, none⟩
    ⟨[("b", ⟨"us-east1", false⟩)], "abc", 5, none⟩
    ⟨⟨[("b", ⟨"us-east1", false⟩)], "abc", 5, none⟩, []⟩
    ⟨⟨[("b", ⟨"us-east1", false⟩)], "abc", 5, none⟩, [Call.Attrs "b"]⟩
    ⟨⟨[("b", ⟨"us-east1", false⟩)], "abc", 5, none⟩, [Call.Attrs "b", Call.Attrs "b"]⟩
    ⟨"us-east1", false⟩ (by decide) rfl rfl rfl
  have h2 := C6_hardening_enforced
    (fixedEnv "abc" (.ok ⟨"us-east1", false⟩) none (some (GoError.provider 503 "unavailable"))
      none 7)
    gcpExample ⟨"b", false, none⟩ ()
    ⟨(), [Call.Create "b" "proj" ⟨"us-east1", true⟩]⟩
    ⟨(), [Call.Create "b" "proj" ⟨"us-east1", true⟩, Call.Attrs "b"]⟩
    ⟨(), [Call.Create "b" "proj" ⟨"us-east1", true⟩, Call.Attrs "b", Call.Attrs "b"]⟩
    ⟨"us-east1", false⟩ (by decide) rfl rfl rfl
  ⟨⟨by decide,
    h1.2.2.1 ⟨⟨[("b", ⟨"us-east1", true⟩)], "abc", 5, none⟩,
      [Call.Attrs "b", Call.Attrs "b", Call.Update "b" ⟨some true⟩]⟩ rfl rfl⟩,
   h2.2.2.2 ⟨(), [Call.Create "b" "proj" ⟨"us-east1", true⟩, Call.Attrs "b", Call.Attrs "b",
      Call.Update "b" ⟨some true⟩]⟩ (GoError.provider 503 "unavailable") rfl rfl⟩

/-- C7: anomalous disappearance.  When a pass reaches the verify step with a
committed name and the existence check answers false without an error, the
pass clears the flag `Provisioned`, leaves the name and the timestamp as they
were, calls the status writer once, with that status and as its last call,
makes no attribute fetch and no update after the check, and returns what the
status writer returned. -/
theorem C7_anomalous_disappearance {W : Type} (env : Env W)
    (platformStatus : GCPPlatformStatus) (inst : S3Bucket) (w : W)
    (s1 s2 : Sys W)
    (hname : inst.Name ≠ "")
    (hcreated : createStep env platformStatus inst ⟨w, []⟩ = (none, s1))
    (hexists : DoesBucketExist env inst.Name s1 = ((false, none), s2)) :
    (provisionStorage env platformStatus inst w).status.Provisioned = false ∧
    (provisionStorage env platformStatus inst w).status.Name = inst.Name ∧
    (provisionStorage env platformStatus inst w).status.LastSyncTimestamp =
      inst.LastSyncTimestamp ∧
    (provisionStorage env platformStatus inst w).calls =
      s2.calls ++ [Call.statusUpdate { inst with Provisioned := false }] ∧
    (provisionStorage env platformStatus inst w).calls.countP Call.isStatusUpdate = 1 ∧
    (provisionStorage env platformStatus inst w).calls.countP Call.isAttrs = 1 ∧
    (provisionStorage env platformStatus inst w).calls.countP Call.isUpdate = 0 ∧
    (provisionStorage env platformStatus inst w).err =
      (env.statusUpdate { inst with Provisioned := false } s2.world).1 ∧
    ((env.statusUpdate { inst with Provisioned := false } s2.world).1 = none →
      (provisionStorage env platformStatus inst w).err = none) := by
  have hc1 := createStep_calls env platformStatus inst _ s1 _ hcreated
  have hc2 := DoesBucketExist_calls env inst.Name s1 s2 _ hexists
  have hrun : provisionStorage env platformStatus inst w =
      { status := { inst with Provisioned := false },
        err := (env.statusUpdate { inst with Provisioned := false } s2.world).1,
        world := (env.statusUpdate { inst with Provisioned := false } s2.world).2,
        calls := s2.calls ++ [Call.statusUpdate { inst with Provisioned := false }] } := by
    unfold provisionStorage
    simp only [hname, if_false, hcreated, hexists, Sys.statusUpdate]
  rw [hrun]
  simp only [hc2, hc1]
  by_cases hp : inst.Provisioned = false <;>
    simp [hp, Call.isStatusUpdate, Call.isAttrs, Call.isUpdate, List.countP_cons]

/-- C7 at a concrete input: the status is provisioned but the in-memory
provider has no bucket. -/
theorem C7_anomalous_disappearance_witness :
    (provisionStorage memEnv gcpExample ⟨"b", true, some 3⟩ ⟨[], "abc", 5, none⟩).status =
      ⟨"b", false, some 3⟩ ∧
    (provisionStorage memEnv gcpExample ⟨"b", true, some 3⟩ ⟨[], "abc", 5, none⟩).calls =
      [Call.Attrs "b", Call.statusUpdate ⟨"b", false, some 3⟩] ∧
    (provisionStorage memEnv gcpExample ⟨"b", true, some 3⟩ ⟨[], "abc", 5, none⟩).err = none :=
  have h := C7_anomalous_disappearance memEnv gcpExample ⟨"b", true, some 3⟩
    ⟨[], "abc", 5, none⟩ ⟨⟨[], "abc", 5, none⟩, []⟩ ⟨⟨[], "abc", 5, none⟩, [Call.Attrs "b"]⟩
    (by decide) rfl rfl
  ⟨rfl, h.2.2.2.1, h.2.2.2.2.2.2.2.2 rfl⟩

/-- C8: name commit.  When a pass starts without a name and the existence
check on the candidate answers false without an error, the pass ends with the
candidate as name, which is the constant `managed-velero-backups-` followed
by the token the random source gave in this pass, and with the flag
`Provisioned` cleared.  The calls of the pass are the lookup of the check and
one call of the status writer, so no `Create`, no attribute fetch and no
`Update`; the pass returns what the status writer returned. -/
theorem C8_name_commit {W : Type} (env : Env W)
    (platformStatus : GCPPlatformStatus) (inst : S3Bucket) (w : W)
    (proposedName : String) (s1 s2 : Sys W)
    (hname : inst.Name = "")
    (hgen : generateBucketName env bucketPrefix ⟨w, []⟩ = (proposedName, s1))
    (hexists : DoesBucketExist env proposedName s1 = ((false, none), s2)) :
    proposedName = "managed-velero-backups-" ++ (env.uuidNew w).1 ∧
    (provisionStorage env platformStatus inst w).status.Name = proposedName ∧
    (provisionStorage env platformStatus inst w).status.Provisioned = false ∧
    (provisionStorage env platformStatus inst w).calls =
      [Call.Attrs proposedName,
       Call.statusUpdate { inst with Name := proposedName, Provisioned := false }] ∧
    (provisionStorage env platformStatus inst w).calls.countP Call.isStatusUpdate = 1 ∧
    (provisionStorage env platformStatus inst w).calls.countP Call.isCreate = 0 ∧
    (provisionStorage env platformStatus inst w).calls.countP Call.isUpdate = 0 ∧
    (provisionStorage env platformStatus inst w).calls.countP Call.isAttrs = 1 ∧
    (provisionStorage env platformStatus inst w).err =
      (env.statusUpdate { inst with Name := proposedName, Provisioned := false } s2.world).1 := by
  have hp : proposedName = "managed-velero-backups-" ++ (env.uuidNew w).1 := by
    have := congrArg (fun p => p.1) hgen
    simpa [generateBucketName, bucketPrefix] using this.symm
  have hc1 : s1.calls = [] := by
    have := congrArg (fun p => p.2.calls) hgen
    simpa [generateBucketName] using this.symm
  have hc2 := DoesBucketExist_calls env proposedName s1 s2 _ hexists
  have hrun : provisionStorage env platformStatus inst w =
      { status := { inst with Name := proposedName, Provisioned := false },
        err := (env.statusUpdate
          { inst with Name := proposedName, Provisioned := false } s2.world).1,
        world := (env.statusUpdate
          { inst with Name := proposedName, Provisioned := false } s2.world).2,
        calls := s2.calls ++
          [Call.statusUpdate { inst with Name := proposedName, Provisioned := false }] } := by
    unfold provisionStorage
    simp only [hname, if_true, hgen, hexists, Sys.statusUpdate]
  rw [hrun]
  simp only [hc2, hc1]
  refine ⟨hp, ?_⟩
  simp [Call.isStatusUpdate, Call.isAttrs, Call.isUpdate, Call.isCreate, List.countP_cons]

/-- C8 at a concrete input: the empty status, the in-memory provider without
buckets, and the token `abc`. -/
theorem C8_name_commit_witness :
    (provisionStorage memEnv gcpExample ⟨"", false, none⟩ ⟨[], "abc", 5, none⟩).status =
      ⟨"managed-velero-backups-abc", false, none⟩ ∧
    (provisionStorage memEnv gcpExample ⟨"", false, none⟩ ⟨[], "abc", 5, none⟩).calls =
      [Call.Attrs "managed-velero-backups-abc",
       Call.statusUpdate ⟨"managed-velero-backups-abc", false, none⟩] ∧
    (provisionStorage memEnv gcpExample ⟨"", false, none⟩ ⟨[], "abc", 5, none⟩).err = none :=
  have h := C8_name_commit memEnv gcpExample ⟨"", false, none⟩ ⟨[], "abc", 5, none⟩
    "managed-velero-backups-abc" ⟨⟨[], "abc", 5, none⟩, []⟩
    ⟨⟨[], "abc", 5, none⟩, [Call.Attrs "managed-velero-backups-abc"]⟩ rfl rfl rfl
  ⟨rfl, h.2.2.2.1, h.2.2.2.2.2.2.2.2⟩

/-- The calls of a pass that starts with a name, not provisioned: the
`Create` for the committed name, the platform's project and region, with
uniform bucket-level access enabled, and after it no other `Create`. -/
theorem provisionStorage_unprovisioned_calls {W : Type} (env : Env W)
    (platformStatus : GCPPlatformStatus) (inst : S3Bucket) (w : W)
    (hname : inst.Name ≠ "") (hprov : inst.Provisioned = false) :
    ∃ rest : List Call,
      (provisionStorage env platformStatus inst w).calls =
        Call.Create inst.Name platformStatus.ProjectID
          ⟨platformStatus.Region, UniformBucketLevelAccessEnabled⟩ :: rest ∧
      rest.countP Call.isCreate = 0 := by
  unfold provisionStorage
  simp only [hname, if_false, createStep, hprov, if_true, Sys.Create, DoesBucketExist_eq,
    Sys.Attrs, enforceStep, Sys.Update, Sys.statusUpdate, List.nil_append]
  rcases (env.Create inst.Name platformStatus.ProjectID
      ⟨platformStatus.Region, UniformBucketLevelAccessEnabled⟩ w) with ⟨_ | e, w1⟩
  · simp only
    rcases (env.Attrs inst.Name w1) with ⟨_ | a1, w2⟩
    · rename_i e1
      by_cases he : e1 = GoError.ErrBucketNotExist
      · simp [he, Call.isCreate, List.countP_cons]
      · simp [he, Call.isCreate, List.countP_cons]
    · simp only
      rcases (env.Attrs inst.Name w2) with ⟨_ | a2, w3⟩
      · simp [Call.isCreate, List.countP_cons]
      · simp only
        by_cases hu : a2.UniformBucketLevelAccess = false
        · simp only [hu, if_true]
          rcases (env.Update inst.Name ⟨some UniformBucketLevelAccessEnabled⟩ w3) with ⟨_ | e3, w4⟩
          · simp [Call.isCreate, List.countP_cons]
          · simp [Call.isCreate, List.countP_cons]
        · simp [hu, Call.isCreate, List.countP_cons]
  · simp [Call.isCreate]

/-- The calls of a pass that starts with the flag `Provisioned` set: no
`Create` among them. -/
theorem provisionStorage_provisioned_calls {W : Type} (env : Env W)
    (platformStatus : GCPPlatformStatus) (inst : S3Bucket) (w : W)
    (hprov : inst.Provisioned = true) :
    ∀ name projectID attrs,
      Call.Create name projectID attrs ∉ (provisionStorage env platformStatus inst w).calls := by
  intro name projectID attrs
  unfold provisionStorage
  simp only [createStep, hprov, Bool.true_eq_false, if_false, generateBucketName,
    DoesBucketExist_eq, Sys.Attrs, enforceStep, Sys.Update, Sys.statusUpdate, List.nil_append]
  by_cases hname : inst.Name = ""
  · simp only [hname, if_true]
    rcases (env.Attrs (bucketPrefix ++ (env.uuidNew w).1) (env.uuidNew w).2) with ⟨_ | a1, w2⟩
    · rename_i e1
      by_cases he : e1 = GoError.ErrBucketNotExist
      · simp [he]
      · simp [he]
    · simp
  · simp only [hname, if_false]
    rcases (env.Attrs inst.Name w) with ⟨_ | a1, w2⟩
    · rename_i e1
      by_cases he : e1 = GoError.ErrBucketNotExist
      · simp [he]
      · simp [he]
    · simp only
      rcases (env.Attrs inst.Name w2) with ⟨_ | a2, w3⟩
      · simp
      · simp only
        by_cases hu : a2.UniformBucketLevelAccess = false
        · simp only [hu, if_true]
          rcases (env.Update inst.Name ⟨some UniformBucketLevelAccessEnabled⟩ w3) with ⟨_ | e3, w4⟩
          · simp
          · simp
        · simp [hu]

/-- C9: the creation step.  A pass that starts with a name, not provisioned,
issues exactly one `Create`; it is the first call of the pass and it targets
the committed name, with the platform's project, the platform's region as
location and uniform bucket-level access enabled.  When that `Create`
succeeds, the existence check answers true and the attributes report the
hardening enabled, the pass ends with the flag `Provisioned` set and the
timestamp set to the time the clock gives.  A pass that starts with the flag
set issues no `Create`. -/
theorem C9_creation_step {W : Type} (env : Env W)
    (platformStatus : GCPPlatformStatus) (inst : S3Bucket) (w : W) :
    (inst.Name ≠ "" → inst.Provisioned = false →
      (provisionStorage env platformStatus inst w).calls.head? =
        some (Call.Create inst.Name platformStatus.ProjectID ⟨platformStatus.Region, true⟩) ∧
      (provisionStorage env platformStatus inst w).calls.countP Call.isCreate = 1 ∧
      (∀ name projectID attrs,
        Call.Create name projectID attrs ∈ (provisionStorage env platformStatus inst w).calls →
        name = inst.Name ∧ projectID = platformStatus.ProjectID ∧
        attrs = ⟨platformStatus.Region, true⟩) ∧
      (∀ (s1 s2 s3 : Sys W) (bucketAttrs : BucketAttrs),
        Sys.Create env inst.Name platformStatus.ProjectID
          ⟨platformStatus.Region, UniformBucketLevelAccessEnabled⟩ ⟨w, []⟩ = (none, s1) →
        DoesBucketExist env inst.Name s1 = ((true, none), s2) →
        Sys.Attrs env inst.Name s2 = (.ok bucketAttrs, s3) →
        bucketAttrs.UniformBucketLevelAccess = true →
        (provisionStorage env platformStatus inst w).status.Provisioned = true ∧
        (provisionStorage env platformStatus inst w).status.LastSyncTimestamp =
          some (env.now s3.world).1)) ∧
    (inst.Provisioned = true →
      ∀ name projectID attrs,
        Call.Create name projectID attrs ∉ (provisionStorage env platformStatus inst w).calls) := by
  refine ⟨fun hname hprov => ?_, fun hprov => provisionStorage_provisioned_calls env
    platformStatus inst w hprov⟩
  obtain ⟨rest, hcalls, hrest⟩ :=
    provisionStorage_unprovisioned_calls env platformStatus inst w hname hprov
  refine ⟨?_, ?_, ?_, ?_⟩
  · rw [hcalls]; rfl
  · rw [hcalls, List.countP_cons, hrest]; rfl
  · intro name projectID attrs hmem
    rw [hcalls] at hmem
    rcases List.mem_cons.1 hmem with h | h
    · simpa [UniformBucketLevelAccessEnabled] using h
    · have := List.countP_eq_zero.1 hrest _ h
      simp [Call.isCreate] at this
  · intro s1 s2 s3 bucketAttrs hcreate hexists hattrs hubla
    have hcreated : createStep env platformStatus inst ⟨w, []⟩ = (none, s1) := by
      simp only [createStep, hprov, if_true, hcreate]
    have henforce : enforceStep env inst bucketAttrs s3 = (none, s3) := by
      simp [enforceStep, hubla]
    rw [provisionStorage_converged env platformStatus inst w s1 s2 s3 s3 bucketAttrs
      hname hcreated hexists hattrs henforce]
    exact ⟨rfl, rfl⟩

/-- C9 at concrete inputs of the in-memory provider: from the status `b`, not
provisioned, with no bucket, the pass creates the bucket first and ends
provisioned with the time of the clock; from a provisioned status the pass
makes no creation call. -/
theorem C9_creation_step_witness :
    ((provisionStorage memEnv gcpExample ⟨"b", false, none⟩ ⟨[], "abc", 5, none⟩).calls.head? =
        some (Call.Create "b" "proj" ⟨"us-east1", true⟩) ∧
     (provisionStorage memEnv gcpExample ⟨"b", false, none⟩
        ⟨[], "abc", 5, none⟩).calls.countP Call.isCreate = 1 ∧
     (provisionStorage memEnv gcpExample ⟨"b", false, none⟩
        ⟨[], "abc", 5, none⟩).status.Provisioned = true ∧
     (provisionStorage memEnv gcpExample ⟨"b", false, none⟩
        ⟨[], "abc", 5, none⟩).status.LastSyncTimestamp = some 5) ∧
    Call.Create "b" "proj" ⟨"us-east1", true⟩ ∉
      (provisionStorage memEnv gcpExample ⟨"b", true, some 3⟩
        ⟨[("b", ⟨"us-east1", true⟩)], "abc", 5, none⟩).calls :=
  have h1 := (C9_creation_step memEnv gcpExample ⟨"b", false, none⟩ ⟨[], "abc", 5, none⟩).1
    (by decide) rfl
  have h2 := (C9_creation_step memEnv gcpExample ⟨"b", true, some 3⟩
    ⟨[("b", ⟨"us-east1", true⟩)], "abc", 5, none⟩).2 rfl
  have h3 := h1.2.2.2
    ⟨⟨[("b", ⟨"us-east1", true⟩)], "abc", 5, none⟩, [Call.Create "b" "proj" ⟨"us-east1", true⟩]⟩
    ⟨⟨[("b", ⟨"us-east1", true⟩)], "abc", 5, none⟩,
      [Call.Create "b" "proj" ⟨"us-east1", true⟩, Call.Attrs "b"]⟩
    ⟨⟨[("b", ⟨"us-east1", true⟩)], "abc", 5, none⟩,
      [Call.Create "b" "proj" ⟨"us-east1", true⟩, Call.Attrs "b", Call.Attrs "b"]⟩
    ⟨"us-east1", true⟩ rfl rfl rfl rfl
  ⟨⟨h1.1, h1.2.1, h3.1, h3.2⟩, h2 "b" "proj" ⟨"us-east1", true⟩⟩

/-- C10: `DoesBucketExist` classifies the attribute lookup exhaustively.  It
answers `(true, nil)` exactly when the lookup succeeds, `(false, nil)` exactly
when the lookup fails with the bucket-not-exist error, and for every other
failure `(false, err)` with the very error of the lookup; so it never answers
`(false, nil)` for another failure.  It makes that one lookup and no other
call. -/
theorem C10_DoesBucketExist_classifies {W : Type} (env : Env W) (bucketName : String)
    (s : Sys W) :
    ((DoesBucketExist env bucketName s).1 = (true, none) ↔
      ∃ attrs, (env.Attrs bucketName s.world).1 = .ok attrs) ∧
    ((DoesBucketExist env bucketName s).1 = (false, none) ↔
      (env.Attrs bucketName s.world).1 = .error GoError.ErrBucketNotExist) ∧
    (∀ err : GoError, (env.Attrs bucketName s.world).1 = .error err →
      err ≠ GoError.ErrBucketNotExist →
      (DoesBucketExist env bucketName s).1 = (false, some err)) ∧
    (∀ err : GoError, (DoesBucketExist env bucketName s).1.2 = some err →
      (env.Attrs bucketName s.world).1 = .error err ∧ err ≠ GoError.ErrBucketNotExist ∧
      (DoesBucketExist env bucketName s).1.1 = false) ∧
    (DoesBucketExist env bucketName s).2.world = (env.Attrs bucketName s.world).2 ∧
    (DoesBucketExist env bucketName s).2.calls = s.calls ++ [Call.Attrs bucketName] := by
  rw [DoesBucketExist_eq]
  cases h : (env.Attrs bucketName s.world).1 with
  | error e =>
    by_cases he : e = GoError.ErrBucketNotExist
    · simp [he]
    · refine ⟨by simp [he], by simp [he], ?_, ?_, rfl, rfl⟩
      · intro err herr _
        cases herr
        simp [he]
      · intro err herr
        simp only [he, if_false, Option.some.injEq] at herr
        subst herr
        simp [he]
  | ok a => simp

/-- C10 at concrete inputs: a bucket that is there, a bucket that is not
there, and a lookup that is refused. -/
theorem C10_DoesBucketExist_classifies_witness :
    (DoesBucketExist memEnv "b" ⟨⟨[("b", ⟨"us-east1", true⟩)], "abc", 5, none⟩, []⟩).1 =
      (true, none) ∧
    (DoesBucketExist memEnv "b" ⟨⟨[], "abc", 5, none⟩, []⟩).1 = (false, none) ∧
    (DoesBucketExist
      (fixedEnv "abc" (.error (GoError.provider 403 "forbidden")) none none none 7)
      "b" ⟨(), []⟩).1 = (false, some (GoError.provider 403 "forbidden")) :=
  ⟨(C10_DoesBucketExist_classifies memEnv "b"
      ⟨⟨[("b", ⟨"us-east1", true⟩)], "abc", 5, none⟩, []⟩).1.2 ⟨⟨"us-east1", true⟩, rfl⟩,
   (C10_DoesBucketExist_classifies memEnv "b" ⟨⟨[], "abc", 5, none⟩, []⟩).2.1.2 rfl,
   (C10_DoesBucketExist_classifies
      (fixedEnv "abc" (.error (GoError.provider 403 "forbidden")) none none none 7)
      "b" ⟨(), []⟩).2.2.1 (GoError.provider 403 "forbidden") rfl (by decide)⟩

/-- C11: `NewDriver` fails closed.  For a descriptor whose platform status is
present the call returns; it returns an error together with the nil driver
exactly when the platform type is neither AWS nor GCP, the s3 driver without
an error for AWS, the gcs driver without an error for GCP, and never a driver
for another type.  The descriptor is the same after the call. -/
theorem C11_NewDriver_fails_closed (cfg : InfrastructureStatus)
    (platformStatus : PlatformStatus) (hps : cfg.PlatformStatus = some platformStatus) :
    ∃ r : DriverResult, NewDriver cfg = some r ∧
      ((r.err ≠ none ∧ r.driver = none) ↔
        (platformStatus.platformType ≠ AWSPlatformType ∧
         platformStatus.platformType ≠ GCPPlatformType)) ∧
      (platformStatus.platformType = AWSPlatformType →
        r.driver = some (Driver.s3 cfg) ∧ r.err = none) ∧
      (platformStatus.platformType = GCPPlatformType →
        r.driver = some (Driver.gcs cfg) ∧ r.err = none) ∧
      (platformStatus.platformType ≠ AWSPlatformType →
        platformStatus.platformType ≠ GCPPlatformType →
        r.driver = none ∧ r.err = some (GoError.errorf "unable to determine platform")) ∧
      (r.driver = none ↔ r.err ≠ none) ∧
      r.cfg = cfg := by
  have hne : AWSPlatformType ≠ GCPPlatformType := by decide
  unfold NewDriver
  rw [hps]
  by_cases h1 : platformStatus.platformType = AWSPlatformType
  · have h2 : platformStatus.platformType ≠ GCPPlatformType := by rw [h1]; exact hne
    simp [h1, hne]
  · by_cases h2 : platformStatus.platformType = GCPPlatformType
    · simp [h2, hne.symm]
    · simp [h1, h2]

/-- C11 at three concrete descriptors: AWS, GCP and Azure. -/
theorem C11_NewDriver_fails_closed_witness :
    (∃ r : DriverResult, NewDriver ⟨"cluster-x", some ⟨"AWS"⟩⟩ = some r ∧
      r.driver = some (Driver.s3 ⟨"cluster-x", some ⟨"AWS"⟩⟩) ∧ r.err = none) ∧
    (∃ r : DriverResult, NewDriver ⟨"cluster-x", some ⟨"GCP"⟩⟩ = some r ∧
      r.driver = some (Driver.gcs ⟨"cluster-x", some ⟨"GCP"⟩⟩) ∧ r.err = none) ∧
    (∃ r : DriverResult, NewDriver ⟨"cluster-x", some ⟨"Azure"⟩⟩ = some r ∧
      r.driver = none ∧ r.err = some (GoError.errorf "unable to determine platform")) := by
  refine ⟨?_, ?_, ?_⟩
  · obtain ⟨r, hr, _, h, _⟩ :=
      C11_NewDriver_fails_closed ⟨"cluster-x", some ⟨"AWS"⟩⟩ ⟨"AWS"⟩ rfl
    exact ⟨r, hr, h rfl⟩
  · obtain ⟨r, hr, _, _, h, _⟩ :=
      C11_NewDriver_fails_closed ⟨"cluster-x", some ⟨"GCP"⟩⟩ ⟨"GCP"⟩ rfl
    exact ⟨r, hr, h rfl⟩
  · obtain ⟨r, hr, _, _, _, h, _⟩ :=
      C11_NewDriver_fails_closed ⟨"cluster-x", some ⟨"Azure"⟩⟩ ⟨"Azure"⟩ rfl
    exact ⟨r, hr, h (by decide) (by decide)⟩

/-- The call `NewDriver` panics exactly for a descriptor whose platform status
is absent. -/
theorem NewDriver_panics_iff (cfg : InfrastructureStatus) :
    NewDriver cfg = none ↔ cfg.PlatformStatus = none := by
  unfold NewDriver
  cases h : cfg.PlatformStatus with
  | none => simp
  | some platformStatus =>
    simp only [reduceCtorEq, iff_false]
    split
    · exact Option.some_ne_none _
    · split <;> exact Option.some_ne_none _

/-- C19 fails on the code: for the descriptor below, whose platform status is
absent, the call does not return a driver or an error; it panics on reading
the platform type through the nil pointer. -/
theorem C19_NewDriver_nil_platform_status_panics :
    NewDriver ⟨"cluster-x", none⟩ = none := rfl

/-! ## The paths of a pass -/

/-- A pass that starts without a name either leaves the status as it was, or
clears the flag `Provisioned` and leaves the timestamp as it was. -/
theorem provisionStorage_unnamed_status {W : Type} (env : Env W)
    (platformStatus : GCPPlatformStatus) (inst : S3Bucket) (w : W)
    (hname : inst.Name = "") :
    (provisionStorage env platformStatus inst w).status = inst ∨
    ((provisionStorage env platformStatus inst w).status.Provisioned = false ∧
     (provisionStorage env platformStatus inst w).status.LastSyncTimestamp =
       inst.LastSyncTimestamp) := by
  unfold provisionStorage
  simp only [hname, if_true]
  rcases DoesBucketExist env (generateBucketName env bucketPrefix ⟨w, []⟩).1
      (generateBucketName env bucketPrefix ⟨w, []⟩).2 with ⟨⟨b, _ | e⟩, s2⟩
  · cases b
    · right; exact ⟨rfl, rfl⟩
    · left; rfl
  · cases b <;> (left; rfl)

/-- Every pass follows one of nine paths: three from a status without a name
(the check fails, the candidate exists, the name is committed) and six from a
status with a name (creation fails, the check fails, the bucket is absent, the
fetch fails, the enforcement fails, the pass converges).  Each path fixes the
result of the pass. -/
theorem provisionStorage_paths {W : Type} (env : Env W)
    (platformStatus : GCPPlatformStatus) (inst : S3Bucket) (w : W) :
    (inst.Name = "" ∧ ∃ (proposedName : String) (s1 s2 : Sys W),
      generateBucketName env bucketPrefix ⟨w, []⟩ = (proposedName, s1) ∧
      ((∃ (b : Bool) (e : GoError),
          DoesBucketExist env proposedName s1 = ((b, some e), s2) ∧
          provisionStorage env platformStatus inst w =
            { status := inst, err := some e, world := s2.world, calls := s2.calls }) ∨
       (DoesBucketExist env proposedName s1 = ((true, none), s2) ∧
          provisionStorage env platformStatus inst w =
            { status := inst,
              err := some (GoError.errorf
                ("proposed bucket " ++ proposedName ++ " already exists, retrying")),
              world := s2.world, calls := s2.calls }) ∨
       (DoesBucketExist env proposedName s1 = ((false, none), s2) ∧
          provisionStorage env platformStatus inst w =
            { status := { inst with Name := proposedName, Provisioned := false },
              err := (env.statusUpdate
                { inst with Name := proposedName, Provisioned := false } s2.world).1,
              world := (env.statusUpdate
                { inst with Name := proposedName, Provisioned := false } s2.world).2,
              calls := s2.calls ++
                [Call.statusUpdate { inst with Name := proposedName, Provisioned := false }] })))
    ∨
    (inst.Name ≠ "" ∧ ∃ s1 : Sys W,
      ((∃ e : GoError, createStep env platformStatus inst ⟨w, []⟩ = (some e, s1) ∧
          provisionStorage env platformStatus inst w =
            { status := inst,
              err := some (GoError.errorf
                ("error occurred when creating bucket " ++ inst.Name ++ ": " ++ e.Error)),
              world := s1.world, calls := s1.calls }) ∨
       (createStep env platformStatus inst ⟨w, []⟩ = (none, s1) ∧ ∃ s2 : Sys W,
          ((∃ (b : Bool) (e : GoError),
              DoesBucketExist env inst.Name s1 = ((b, some e), s2) ∧
              provisionStorage env platformStatus inst w =
                { status := inst,
                  err := some (GoError.errorf
                    ("error occurred when verifying bucket " ++ inst.Name ++ ": "
                      ++ e.Error)),
                  world := s2.world, calls := s2.calls }) ∨
           (DoesBucketExist env inst.Name s1 = ((false, none), s2) ∧
              provisionStorage env platformStatus inst w =
                { status := { inst with Provisioned := false },
                  err := (env.statusUpdate { inst with Provisioned := false } s2.world).1,
                  world := (env.statusUpdate { inst with Provisioned := false } s2.world).2,
                  calls := s2.calls ++
                    [Call.statusUpdate { inst with Provisioned := false }] }) ∨
           (DoesBucketExist env inst.Name s1 = ((true, none), s2) ∧ ∃ s3 : Sys W,
              ((∃ e : GoError, Sys.Attrs env inst.Name s2 = (.error e, s3) ∧
                  provisionStorage env platformStatus inst w =
                    { status := inst,
                      err := some (GoError.errorf
                        ("error occurred when retrieving bucket attributes " ++ inst.Name
                          ++ ": " ++ e.Error)),
                      world := s3.world, calls := s3.calls }) ∨
               (∃ (bucketAttrs : BucketAttrs) (s4 : Sys W),
                  Sys.Attrs env inst.Name s2 = (.ok bucketAttrs, s3) ∧
                  ((∃ e : GoError, enforceStep env inst bucketAttrs s3 = (some e, s4) ∧
                      provisionStorage env platformStatus inst w =
                        { status := inst,
                          err := some (GoError.errorf
                            ("error occurred when enforcing UniformBucketLevelAccess to bucket "
                              ++ inst.Name ++ ": " ++ e.Error)),
                          world := s4.world, calls := s4.calls }) ∨
                   (enforceStep env inst bucketAttrs s3 = (none, s4) ∧
                      provisionStorage env platformStatus inst w =
                        { status := { inst with
                            Provisioned := true,
                            LastSyncTimestamp := some (env.now s4.world).1 },
                          err := (env.statusUpdate
                            { inst with Provisioned := true,
                                        LastSyncTimestamp := some (env.now s4.world).1 }
                            (env.now s4.world).2).1,
                          world := (env.statusUpdate
                            { inst with Provisioned := true,
                                        LastSyncTimestamp := some (env.now s4.world).1 }
                            (env.now s4.world).2).2,
                          calls := s4.calls ++
                            [Call.statusUpdate
                              { inst with Provisioned := true,
                                          LastSyncTimestamp :=
                                            some (env.now s4.world).1 }] }))))))))) := by
  by_cases hname : inst.Name = ""
  · left
    refine ⟨hname, (generateBucketName env bucketPrefix ⟨w, []⟩).1,
      (generateBucketName env bucketPrefix ⟨w, []⟩).2, ?_⟩
    rcases hd : DoesBucketExist env (generateBucketName env bucketPrefix ⟨w, []⟩).1
        (generateBucketName env bucketPrefix ⟨w, []⟩).2 with ⟨⟨b, _ | e⟩, s2⟩
    · refine ⟨s2, rfl, ?_⟩
      cases b
      · right; right
        refine ⟨rfl, ?_⟩
        unfold provisionStorage
        simp only [hname, if_true, hd, Sys.statusUpdate]
      · right; left
        refine ⟨rfl, ?_⟩
        unfold provisionStorage
        simp only [hname, if_true, hd]
    · refine ⟨s2, rfl, ?_⟩
      left
      refine ⟨b, e, rfl, ?_⟩
      unfold provisionStorage
      simp only [hname, if_true, hd]
  · right
    refine ⟨hname, ?_⟩
    rcases hc : createStep env platformStatus inst ⟨w, []⟩ with ⟨_ | e, s1⟩
    · refine ⟨s1, Or.inr ⟨rfl, ?_⟩⟩
      rcases hd : DoesBucketExist env inst.Name s1 with ⟨⟨b, _ | e⟩, s2⟩
      · refine ⟨s2, ?_⟩
        cases b
        · right; left
          refine ⟨rfl, ?_⟩
          unfold provisionStorage
          simp only [hname, if_false, hc, hd, Sys.statusUpdate]
        · right; right
          refine ⟨rfl, ?_⟩
          rcases ha : Sys.Attrs env inst.Name s2 with ⟨e | bucketAttrs, s3⟩
          · refine ⟨s3, Or.inl ⟨e, rfl, ?_⟩⟩
            unfold provisionStorage
            simp only [hname, if_false, hc, hd, ha]
          · refine ⟨s3, Or.inr ?_⟩
            rcases he : enforceStep env inst bucketAttrs s3 with ⟨_ | e, s4⟩
            · exact ⟨bucketAttrs, s4, rfl, Or.inr ⟨he, provisionStorage_converged env
                platformStatus inst w s1 s2 s3 s4 bucketAttrs hname hc hd ha he⟩⟩
            · exact ⟨bucketAttrs, s4, rfl, Or.inl ⟨e, he, provisionStorage_enforce_failed env
                platformStatus inst w s1 s2 s3 s4 bucketAttrs e hname hc hd ha he⟩⟩
      · refine ⟨s2, Or.inl ⟨b, e, rfl, ?_⟩⟩
        unfold provisionStorage
        simp only [hname, if_false, hc, hd]
    · refine ⟨s1, Or.inl ⟨e, rfl, ?_⟩⟩
      unfold provisionStorage
      simp only [hname, if_false, hc]

/-- One pass keeps the status invariant: a status that is provisioned has a
name. -/
theorem provisionStorage_keeps_invariant {W : Type} (env : Env W)
    (platformStatus : GCPPlatformStatus) (inst : S3Bucket) (w : W)
    (hinv : inst.Provisioned = true → inst.Name ≠ "") :
    (provisionStorage env platformStatus inst w).status.Provisioned = true →
    (provisionStorage env platformStatus inst w).status.Name ≠ "" := by
  intro hp
  by_cases hname : inst.Name = ""
  · rcases provisionStorage_unnamed_status env platformStatus inst w hname with h | h
    · rw [h] at hp
      exact absurd hname (hinv hp)
    · rw [h.1] at hp
      exact absurd hp (by decide)
  · rw [provisionStorage_keeps_name env platformStatus inst w hname]
    exact hname

/-- C12: the status invariant.  When the status at the start of a pass
satisfies `Provisioned == true` implies `Name != ""`, so does the status at
the end, whatever the provider and the status writer answer, and so does the
status after any finite sequence of passes; in particular every status reached
from an empty status satisfies it. -/
theorem C12_status_invariant {W : Type} (env : Env W)
    (platformStatus : GCPPlatformStatus) (inst : S3Bucket) (w : W)
    (hinv : inst.Provisioned = true → inst.Name ≠ "") :
    ((provisionStorage env platformStatus inst w).status.Provisioned = true →
      (provisionStorage env platformStatus inst w).status.Name ≠ "") ∧
    (∀ n : Nat, (runPasses env platformStatus n inst w).1.Provisioned = true →
      (runPasses env platformStatus n inst w).1.Name ≠ "") ∧
    (∀ (n : Nat) (w0 : W) (t : Option Time),
      (runPasses env platformStatus n ⟨"", false, t⟩ w0).1.Provisioned = true →
      (runPasses env platformStatus n ⟨"", false, t⟩ w0).1.Name ≠ "") := by
  have hrun : ∀ (n : Nat) (st : S3Bucket) (w1 : W),
      (st.Provisioned = true → st.Name ≠ "") →
      (runPasses env platformStatus n st w1).1.Provisioned = true →
      (runPasses env platformStatus n st w1).1.Name ≠ "" := by
    intro n
    induction n with
    | zero => intro st w1 h; exact h
    | succ n ih =>
      intro st w1 h
      simp only [runPasses]
      exact ih _ _ (provisionStorage_keeps_invariant env platformStatus st w1 h)
  refine ⟨provisionStorage_keeps_invariant env platformStatus inst w hinv,
    fun n => hrun n inst w hinv, fun n w0 t => hrun n ⟨"", false, t⟩ w0 ?_⟩
  intro h
  cases h

/-- C12 at concrete inputs of the in-memory provider: the pass from the status
`b`, provisioned, with the bucket there, and two passes from the empty
status. -/
theorem C12_status_invariant_witness :
    ((provisionStorage memEnv gcpExample ⟨"b", true, some 3⟩
        ⟨[("b", ⟨"us-east1", true⟩)], "abc", 5, none⟩).status.Provisioned = true ∧
     (provisionStorage memEnv gcpExample ⟨"b", true, some 3⟩
        ⟨[("b", ⟨"us-east1", true⟩)], "abc", 5, none⟩).status.Name ≠ "") ∧
    ((runPasses memEnv gcpExample 2 ⟨"", false, none⟩ ⟨[], "abc", 5, none⟩).1.Provisioned = true ∧
     (runPasses memEnv gcpExample 2 ⟨"", false, none⟩ ⟨[], "abc", 5, none⟩).1.Name ≠ "") :=
  have h := C12_status_invariant memEnv gcpExample ⟨"b", true, some 3⟩
    ⟨[("b", ⟨"us-east1", true⟩)], "abc", 5, none⟩ (fun _ => by decide)
  ⟨⟨rfl, h.1 rfl⟩, ⟨rfl, h.2.2 2 ⟨[], "abc", 5, none⟩ none rfl⟩⟩

/-- C13: the converged commit.  When a pass ends with the flag `Provisioned`
set where it was clear at the start, or with a timestamp other than the one
at the start, the pass took the converged path, and then both fields are
written together: the flag is set and the timestamp is the time of the clock.
Every pass either does that or leaves the timestamp as it was and does not
set the flag. -/
theorem C13_converged_commit {W : Type} (env : Env W)
    (platformStatus : GCPPlatformStatus) (inst : S3Bucket) (w : W) :
    ((((provisionStorage env platformStatus inst w).status.Provisioned = true ∧
        inst.Provisioned = false) ∨
      (provisionStorage env platformStatus inst w).status.LastSyncTimestamp ≠
        inst.LastSyncTimestamp) →
      ∃ now : Time, ConvergedPass env platformStatus inst w now ∧
        (provisionStorage env platformStatus inst w).status.Provisioned = true ∧
        (provisionStorage env platformStatus inst w).status.LastSyncTimestamp = some now) ∧
    ((∃ now : Time, ConvergedPass env platformStatus inst w now ∧
        (provisionStorage env platformStatus inst w).status.Provisioned = true ∧
        (provisionStorage env platformStatus inst w).status.LastSyncTimestamp = some now) ∨
     ((provisionStorage env platformStatus inst w).status.LastSyncTimestamp =
        inst.LastSyncTimestamp ∧
      ((provisionStorage env platformStatus inst w).status.Provisioned = true →
        inst.Provisioned = true))) := by
  have hdich : (∃ now : Time, ConvergedPass env platformStatus inst w now ∧
        (provisionStorage env platformStatus inst w).status.Provisioned = true ∧
        (provisionStorage env platformStatus inst w).status.LastSyncTimestamp = some now) ∨
     ((provisionStorage env platformStatus inst w).status.LastSyncTimestamp =
        inst.LastSyncTimestamp ∧
      ((provisionStorage env platformStatus inst w).status.Provisioned = true →
        inst.Provisioned = true)) := by
    rcases provisionStorage_paths env platformStatus inst w with
      ⟨_, _, _, s2, _, h⟩ | ⟨hname, s1, h⟩
    · right
      rcases h with ⟨_, _, _, hr⟩ | ⟨_, hr⟩ | ⟨_, hr⟩ <;> rw [hr]
      · exact ⟨rfl, id⟩
      · exact ⟨rfl, id⟩
      · exact ⟨rfl, fun h => by cases h⟩
    · rcases h with ⟨_, _, hr⟩ | ⟨hc, s2, h⟩
      · right; rw [hr]; exact ⟨rfl, id⟩
      · rcases h with ⟨_, _, _, hr⟩ | ⟨_, hr⟩ | ⟨hd, s3, h⟩
        · right; rw [hr]; exact ⟨rfl, id⟩
        · right; rw [hr]; exact ⟨rfl, fun h => by cases h⟩
        · rcases h with ⟨_, _, hr⟩ | ⟨bucketAttrs, s4, ha, h⟩
          · right; rw [hr]; exact ⟨rfl, id⟩
          · rcases h with ⟨_, _, hr⟩ | ⟨he, hr⟩
            · right; rw [hr]; exact ⟨rfl, id⟩
            · left
              refine ⟨(env.now s4.world).1, ⟨s1, s2, s3, s4, bucketAttrs, hname, hc, hd, ha, ?_,
                rfl⟩, ?_, ?_⟩
              · unfold enforceStep at he
                by_cases hu : bucketAttrs.UniformBucketLevelAccess = false
                · right
                  rw [if_pos hu] at he
                  exact ⟨hu, he⟩
                · left
                  rw [if_neg hu] at he
                  refine ⟨by simpa using hu, ?_⟩
                  exact (congrArg Prod.snd he).symm
              · rw [hr]
              · rw [hr]
  refine ⟨?_, hdich⟩
  intro hchange
  rcases hdich with h | ⟨h1, h2⟩
  · exact h
  · rcases hchange with ⟨hp, hq⟩ | hne
    · rw [h2 hp] at hq
      cases hq
    · exact absurd h1 hne

/-- C13 at a concrete input: from the status `b`, not provisioned, the
in-memory provider without buckets gives a pass that sets the flag, so the
pass is a converged one and the timestamp is the time of the clock. -/
theorem C13_converged_commit_witness :
    ∃ now : Time, ConvergedPass memEnv gcpExample ⟨"b", false, none⟩ ⟨[], "abc", 5, none⟩ now ∧
      (provisionStorage memEnv gcpExample ⟨"b", false, none⟩
        ⟨[], "abc", 5, none⟩).status.Provisioned = true ∧
      (provisionStorage memEnv gcpExample ⟨"b", false, none⟩
        ⟨[], "abc", 5, none⟩).status.LastSyncTimestamp = some now :=
  (C13_converged_commit memEnv gcpExample ⟨"b", false, none⟩ ⟨[], "abc", 5, none⟩).1
    (Or.inl ⟨rfl, rfl⟩)

/-- The existence check for a lookup that fails with an error other than the
bucket-not-exist one: `(false, err)` with that error. -/
theorem DoesBucketExist_of_error {W : Type} (env : Env W) (bucketName : String)
    (s s2 : Sys W) (e : GoError)
    (hattrs : Sys.Attrs env bucketName s = (.error e, s2))
    (he : e ≠ GoError.ErrBucketNotExist) :
    DoesBucketExist env bucketName s = ((false, some e), s2) := by
  unfold DoesBucketExist
  rw [hattrs]
  simp [he]

/-- The log after the creation block of a pass has no call of the status
writer, and neither has the log after the lookups and the update that
follow. -/
theorem no_statusUpdate_before_persist {W : Type} (env : Env W)
    (platformStatus : GCPPlatformStatus) (inst : S3Bucket) (w : W) (s1 : Sys W)
    (r : Option GoError) (hcreated : createStep env platformStatus inst ⟨w, []⟩ = (r, s1))
    (names : List String) (upd : List BucketAttrsToUpdate) (st : S3Bucket) :
    Call.statusUpdate st ∉
      s1.calls ++ names.map Call.Attrs ++ upd.map (Call.Update inst.Name) := by
  rw [createStep_calls env platformStatus inst _ s1 r hcreated]
  by_cases hp : inst.Provisioned = false <;> simp [hp]

/-- C14: indeterminate failures are surfaced atomically.  When a provider call
of a pass fails, be it the lookup of the existence check on the proposed name
or on the committed name with an error other than the bucket-not-exist one,
the creation, the attribute fetch or the hardening update with any error, the
pass returns an error, makes no call of the status writer, and leaves the
status record as it was at entry: the flag is not reset and no name is
committed. -/
theorem C14_indeterminate_surfaced {W : Type} (env : Env W)
    (platformStatus : GCPPlatformStatus) (inst : S3Bucket) (w : W)
    (hfail :
      (∃ (proposedName : String) (s1 s2 : Sys W) (e : GoError),
        inst.Name = "" ∧
        generateBucketName env bucketPrefix ⟨w, []⟩ = (proposedName, s1) ∧
        Sys.Attrs env proposedName s1 = (.error e, s2) ∧ e ≠ GoError.ErrBucketNotExist) ∨
      (∃ (s1 : Sys W) (e : GoError),
        inst.Name ≠ "" ∧ inst.Provisioned = false ∧
        Sys.Create env inst.Name platformStatus.ProjectID
          ⟨platformStatus.Region, UniformBucketLevelAccessEnabled⟩ ⟨w, []⟩ = (some e, s1)) ∨
      (∃ (s1 s2 : Sys W) (e : GoError),
        inst.Name ≠ "" ∧
        createStep env platformStatus inst ⟨w, []⟩ = (none, s1) ∧
        Sys.Attrs env inst.Name s1 = (.error e, s2) ∧ e ≠ GoError.ErrBucketNotExist) ∨
      (∃ (s1 s2 s3 : Sys W) (e : GoError),
        inst.Name ≠ "" ∧
        createStep env platformStatus inst ⟨w, []⟩ = (none, s1) ∧
        DoesBucketExist env inst.Name s1 = ((true, none), s2) ∧
        Sys.Attrs env inst.Name s2 = (.error e, s3)) ∨
      (∃ (s1 s2 s3 s4 : Sys W) (bucketAttrs : BucketAttrs) (e : GoError),
        inst.Name ≠ "" ∧
        createStep env platformStatus inst ⟨w, []⟩ = (none, s1) ∧
        DoesBucketExist env inst.Name s1 = ((true, none), s2) ∧
        Sys.Attrs env inst.Name s2 = (.ok bucketAttrs, s3) ∧
        bucketAttrs.UniformBucketLevelAccess = false ∧
        Sys.Update env inst.Name ⟨some UniformBucketLevelAccessEnabled⟩ s3 = (some e, s4))) :
    (provisionStorage env platformStatus inst w).err ≠ none ∧
    (provisionStorage env platformStatus inst w).status = inst ∧
    ∀ st : S3Bucket, Call.statusUpdate st ∉ (provisionStorage env platformStatus inst w).calls := by
  rcases hfail with ⟨cand, s1, s2, e, hname, hgen, hattrs, he⟩ |
    ⟨s1, e, hname, hprov, hcreate⟩ | ⟨s1, s2, e, hname, hcreated, hattrs, he⟩ |
    ⟨s1, s2, s3, e, hname, hcreated, hexists, hattrs⟩ |
    ⟨s1, s2, s3, s4, bucketAttrs, e, hname, hcreated, hexists, hattrs, hubla, hupd⟩
  · have hd := DoesBucketExist_of_error env cand s1 s2 e hattrs he
    have hc1 : s1.calls = [] := by
      have := congrArg (fun p => p.2.calls) hgen
      simpa [generateBucketName] using this.symm
    have hc2 := Sys.Attrs_calls env cand s1 s2 _ hattrs
    have hrun : provisionStorage env platformStatus inst w =
        { status := inst, err := some e, world := s2.world, calls := s2.calls } := by
      unfold provisionStorage
      simp only [hname, if_true, hgen, hd]
    rw [hrun]
    simp [hc2, hc1]
  · have hcreated : createStep env platformStatus inst ⟨w, []⟩ = (some e, s1) := by
      simp only [createStep, hprov, if_true, hcreate]
    have hno := no_statusUpdate_before_persist env platformStatus inst w s1 _ hcreated [] []
    have hrun : provisionStorage env platformStatus inst w =
        { status := inst,
          err := some (GoError.errorf
            ("error occurred when creating bucket " ++ inst.Name ++ ": " ++ e.Error)),
          world := s1.world, calls := s1.calls } := by
      unfold provisionStorage
      simp only [hname, if_false, hcreated]
    rw [hrun]
    refine ⟨by simp, rfl, fun st => ?_⟩
    simpa using hno st
  · have hd := DoesBucketExist_of_error env inst.Name s1 s2 e hattrs he
    have hc2 := Sys.Attrs_calls env inst.Name s1 s2 _ hattrs
    have hno := no_statusUpdate_before_persist env platformStatus inst w s1 _ hcreated
      [inst.Name] []
    have hrun : provisionStorage env platformStatus inst w =
        { status := inst,
          err := some (GoError.errorf
            ("error occurred when verifying bucket " ++ inst.Name ++ ": " ++ e.Error)),
          world := s2.world, calls := s2.calls } := by
      unfold provisionStorage
      simp only [hname, if_false, hcreated, hd]
    rw [hrun]
    refine ⟨by simp, rfl, fun st => ?_⟩
    simpa [hc2] using hno st
  · have hc2 := DoesBucketExist_calls env inst.Name s1 s2 _ hexists
    have hc3 := Sys.Attrs_calls env inst.Name s2 s3 _ hattrs
    have hno := no_statusUpdate_before_persist env platformStatus inst w s1 _ hcreated
      [inst.Name, inst.Name] []
    have hrun : provisionStorage env platformStatus inst w =
        { status := inst,
          err := some (GoError.errorf
            ("error occurred when retrieving bucket attributes " ++ inst.Name ++ ": "
              ++ e.Error)),
          world := s3.world, calls := s3.calls } := by
      unfold provisionStorage
      simp only [hname, if_false, hcreated, hexists, hattrs]
    rw [hrun]
    refine ⟨by simp, rfl, fun st => ?_⟩
    simpa [hc3, hc2] using hno st
  · have hc2 := DoesBucketExist_calls env inst.Name s1 s2 _ hexists
    have hc3 := Sys.Attrs_calls env inst.Name s2 s3 _ hattrs
    have henforce : enforceStep env inst bucketAttrs s3 = (some e, s4) := by
      simp only [enforceStep, hubla, if_true, hupd]
    have hc4 := enforceStep_calls env inst bucketAttrs s3 s4 _ henforce
    have hno := no_statusUpdate_before_persist env platformStatus inst w s1 _ hcreated
      [inst.Name, inst.Name] [⟨some UniformBucketLevelAccessEnabled⟩]
    rw [provisionStorage_enforce_failed env platformStatus inst w s1 s2 s3 s4 bucketAttrs e
      hname hcreated hexists hattrs henforce]
    refine ⟨by simp, rfl, fun st => ?_⟩
    simpa [hc4, hc3, hc2, hubla] using hno st

/-- C14 at five concrete inputs, one for each provider call that fails: the
check on the proposed name, the creation, the check on the committed name,
the attribute fetch after a check that found the bucket, and the update. -/
theorem C14_indeterminate_surfaced_witness :
    ((provisionStorage (fixedEnv "abc" (.error (GoError.provider 403 "forbidden")) none none none 7)
        gcpExample ⟨"", false, none⟩ ()).err ≠ none ∧
     (provisionStorage (fixedEnv "abc" (.error (GoError.provider 403 "forbidden")) none none none 7)
        gcpExample ⟨"", false, none⟩ ()).status = ⟨"", false, none⟩) ∧
    ((provisionStorage (fixedEnv "abc" (.ok ⟨"us-east1", true⟩)
          (some (GoError.provider 429 "quota exceeded")) none none 7)
        gcpExample ⟨"b", false, none⟩ ()).err ≠ none ∧
     (provisionStorage (fixedEnv "abc" (.ok ⟨"us-east1", true⟩)
          (some (GoError.provider 429 "quota exceeded")) none none 7)
        gcpExample ⟨"b", false, none⟩ ()).status = ⟨"b", false, none⟩) ∧
    ((provisionStorage (fixedEnv "abc" (.error (GoError.provider 403 "forbidden")) none none none 7)
        gcpExample ⟨"b", true, some 3⟩ ()).err ≠ none ∧
     (provisionStorage (fixedEnv "abc" (.error (GoError.provider 403 "forbidden")) none none none 7)
        gcpExample ⟨"b", true, some 3⟩ ()).status = ⟨"b", true, some 3⟩) ∧
    ((provisionStorage (queueEnv "abc" none none none 7) gcpExample ⟨"b", true, some 3⟩
        [.ok ⟨"us-east1", true⟩, .error (GoError.provider 503 "unavailable")]).err ≠ none ∧
     (provisionStorage (queueEnv "abc" none none none 7) gcpExample ⟨"b", true, some 3⟩
        [.ok ⟨"us-east1", true⟩, .error (GoError.provider 503 "unavailable")]).status =
        ⟨"b", true, some 3⟩) ∧
    ((provisionStorage (fixedEnv "abc" (.ok ⟨"us-east1", false⟩) none
          (some (GoError.provider 503 "unavailable")) none 7)
        gcpExample ⟨"b", true, some 3⟩ ()).err ≠ none ∧
     (provisionStorage (fixedEnv "abc" (.ok ⟨"us-east1", false⟩) none
          (some (GoError.provider 503 "unavailable")) none 7)
        gcpExample ⟨"b", true, some 3⟩ ()).status = ⟨"b", true, some 3⟩) :=
  have h1 := C14_indeterminate_surfaced
    (fixedEnv "abc" (.error (GoError.provider 403 "forbidden")) none none none 7)
    gcpExample ⟨"", false, none⟩ ()
    (Or.inl ⟨"managed-velero-backups-abc", ⟨(), []⟩,
      ⟨(), [Call.Attrs "managed-velero-backups-abc"]⟩, GoError.provider 403 "forbidden",
      rfl, rfl, rfl, by decide⟩)
  have h2 := C14_indeterminate_surfaced
    (fixedEnv "abc" (.ok ⟨"us-east1", true⟩) (some (GoError.provider 429 "quota exceeded"))
      none none 7)
    gcpExample ⟨"b", false, none⟩ ()
    (Or.inr (Or.inl ⟨⟨(), [Call.Create "b" "proj" ⟨"us-east1", true⟩]⟩,
      GoError.provider 429 "quota exceeded", by decide, rfl, rfl⟩))
  have h3 := C14_indeterminate_surfaced
    (fixedEnv "abc" (.error (GoError.provider 403 "forbidden")) none none none 7)
    gcpExample ⟨"b", true, some 3⟩ ()
    (Or.inr (Or.inr (Or.inl ⟨⟨(), []⟩, ⟨(), [Call.Attrs "b"]⟩,
      GoError.provider 403 "forbidden", by decide, rfl, rfl, by decide⟩)))
  have h4 := C14_indeterminate_surfaced (queueEnv "abc" none none none 7)
    gcpExample ⟨"b", true, some 3⟩
    [.ok ⟨"us-east1", true⟩, .error (GoError.provider 503 "unavailable")]
    (Or.inr (Or.inr (Or.inr (Or.inl
      ⟨⟨[.ok ⟨"us-east1", true⟩, .error (GoError.provider 503 "unavailable")], []⟩,
       ⟨[.error (GoError.provider 503 "unavailable")], [Call.Attrs "b"]⟩,
       ⟨[], [Call.Attrs "b", Call.Attrs "b"]⟩,
       GoError.provider 503 "unavailable", by decide, rfl, rfl, rfl⟩))))
  have h5 := C14_indeterminate_surfaced
    (fixedEnv "abc" (.ok ⟨"us-east1", false⟩) none (some (GoError.provider 503 "unavailable"))
      none 7)
    gcpExample ⟨"b", true, some 3⟩ ()
    (Or.inr (Or.inr (Or.inr (Or.inr
      ⟨⟨(), []⟩, ⟨(), [Call.Attrs "b"]⟩, ⟨(), [Call.Attrs "b", Call.Attrs "b"]⟩,
       ⟨(), [Call.Attrs "b", Call.Attrs "b", Call.Update "b" ⟨some true⟩]⟩,
       ⟨"us-east1", false⟩, GoError.provider 503 "unavailable",
       by decide, rfl, rfl, rfl, rfl, rfl⟩))))
  ⟨⟨h1.1, h1.2.1⟩, ⟨h2.1, h2.2.1⟩, ⟨h3.1, h3.2.1⟩, ⟨h4.1, h4.2.1⟩, ⟨h5.1, h5.2.1⟩⟩

/-- A log without a call of the status writer does not hold any such call. -/
theorem not_mem_of_countP_statusUpdate (l : List Call)
    (h : l.countP Call.isStatusUpdate = 0) (st : S3Bucket) : Call.statusUpdate st ∉ l := by
  intro hmem
  have := List.countP_eq_zero.1 h _ hmem
  simp [Call.isStatusUpdate] at this

/-- The creation block adds no call of the status writer to the log. -/
theorem createStep_countP_statusUpdate {W : Type} (env : Env W)
    (platformStatus : GCPPlatformStatus) (inst : S3Bucket) (s s1 : Sys W) (r : Option GoError)
    (h : createStep env platformStatus inst s = (r, s1)) :
    s1.calls.countP Call.isStatusUpdate = s.calls.countP Call.isStatusUpdate := by
  rw [createStep_calls env platformStatus inst s s1 r h]
  by_cases hp : inst.Provisioned = false <;>
    simp [hp, List.countP_append, List.countP_cons, Call.isStatusUpdate]

/-- The existence check adds no call of the status writer to the log. -/
theorem DoesBucketExist_countP_statusUpdate {W : Type} (env : Env W) (bucketName : String)
    (s s1 : Sys W) (r : Bool × Option GoError)
    (h : DoesBucketExist env bucketName s = (r, s1)) :
    s1.calls.countP Call.isStatusUpdate = s.calls.countP Call.isStatusUpdate := by
  rw [DoesBucketExist_calls env bucketName s s1 r h]
  simp [List.countP_append, List.countP_cons, Call.isStatusUpdate]

/-- The attribute fetch adds no call of the status writer to the log. -/
theorem Sys.Attrs_countP_statusUpdate {W : Type} (env : Env W) (name : String)
    (s s1 : Sys W) (r : Except GoError BucketAttrs)
    (h : Sys.Attrs env name s = (r, s1)) :
    s1.calls.countP Call.isStatusUpdate = s.calls.countP Call.isStatusUpdate := by
  rw [Sys.Attrs_calls env name s s1 r h]
  simp [List.countP_append, List.countP_cons, Call.isStatusUpdate]

/-- The enforcement block adds no call of the status writer to the log. -/
theorem enforceStep_countP_statusUpdate {W : Type} (env : Env W) (inst : S3Bucket)
    (bucketAttrs : BucketAttrs) (s s1 : Sys W) (r : Option GoError)
    (h : enforceStep env inst bucketAttrs s = (r, s1)) :
    s1.calls.countP Call.isStatusUpdate = s.calls.countP Call.isStatusUpdate := by
  rw [enforceStep_calls env inst bucketAttrs s s1 r h]
  by_cases hp : bucketAttrs.UniformBucketLevelAccess = false <;>
    simp [hp, List.countP_append, List.countP_cons, Call.isStatusUpdate]

/-- The generation of the name makes no call. -/
theorem generateBucketName_calls {W : Type} (env : Env W) (pfx : String) (s s1 : Sys W)
    (name : String) (h : generateBucketName env pfx s = (name, s1)) :
    s1.calls = s.calls := by
  have := congrArg (fun p => p.2.calls) h
  exact this.symm

/-- Every pass either makes no call of the status writer, or makes exactly
one, as its last call, for the status it ends with, and returns what that call
returned. -/
theorem provisionStorage_persist_last {W : Type} (env : Env W)
    (platformStatus : GCPPlatformStatus) (inst : S3Bucket) (w : W) :
    (provisionStorage env platformStatus inst w).calls.countP Call.isStatusUpdate = 0 ∨
    ∃ (pre : List Call) (w1 : W),
      pre.countP Call.isStatusUpdate = 0 ∧
      (provisionStorage env platformStatus inst w).calls =
        pre ++ [Call.statusUpdate (provisionStorage env platformStatus inst w).status] ∧
      (provisionStorage env platformStatus inst w).err =
        (env.statusUpdate (provisionStorage env platformStatus inst w).status w1).1 ∧
      (provisionStorage env platformStatus inst w).world =
        (env.statusUpdate (provisionStorage env platformStatus inst w).status w1).2 := by
  rcases provisionStorage_paths env platformStatus inst w with
    ⟨_, cand, s1, s2, hgen, h⟩ | ⟨hname, s1, h⟩
  · have h1 : s1.calls.countP Call.isStatusUpdate = 0 := by
      rw [generateBucketName_calls env _ _ s1 cand hgen]; rfl
    rcases h with ⟨b, e, hd, hr⟩ | ⟨hd, hr⟩ | ⟨hd, hr⟩
    · left; rw [hr]
      exact (DoesBucketExist_countP_statusUpdate env cand s1 s2 _ hd).trans h1
    · left; rw [hr]
      exact (DoesBucketExist_countP_statusUpdate env cand s1 s2 _ hd).trans h1
    · right; rw [hr]
      exact ⟨s2.calls, s2.world,
        (DoesBucketExist_countP_statusUpdate env cand s1 s2 _ hd).trans h1, rfl, rfl, rfl⟩
  · rcases h with ⟨e, hc, hr⟩ | ⟨hc, s2, h⟩
    · left; rw [hr]
      exact (createStep_countP_statusUpdate env platformStatus inst _ s1 _ hc).trans rfl
    · have h1 : s1.calls.countP Call.isStatusUpdate = 0 :=
        (createStep_countP_statusUpdate env platformStatus inst _ s1 _ hc).trans rfl
      rcases h with ⟨b, e, hd, hr⟩ | ⟨hd, hr⟩ | ⟨hd, s3, h⟩
      · left; rw [hr]
        exact (DoesBucketExist_countP_statusUpdate env inst.Name s1 s2 _ hd).trans h1
      · right; rw [hr]
        exact ⟨s2.calls, s2.world,
          (DoesBucketExist_countP_statusUpdate env inst.Name s1 s2 _ hd).trans h1, rfl, rfl, rfl⟩
      · have h2 : s2.calls.countP Call.isStatusUpdate = 0 :=
          (DoesBucketExist_countP_statusUpdate env inst.Name s1 s2 _ hd).trans h1
        rcases h with ⟨e, ha, hr⟩ | ⟨bucketAttrs, s4, ha, h⟩
        · left; rw [hr]
          exact (Sys.Attrs_countP_statusUpdate env inst.Name s2 s3 _ ha).trans h2
        · have h3 : s3.calls.countP Call.isStatusUpdate = 0 :=
            (Sys.Attrs_countP_statusUpdate env inst.Name s2 s3 _ ha).trans h2
          rcases h with ⟨e, he, hr⟩ | ⟨he, hr⟩
          · left; rw [hr]
            exact (enforceStep_countP_statusUpdate env inst bucketAttrs s3 s4 _ he).trans h3
          · right; rw [hr]
            exact ⟨s4.calls, (env.now s4.world).2,
              (enforceStep_countP_statusUpdate env inst bucketAttrs s3 s4 _ he).trans h3,
              rfl, rfl, rfl⟩

/-- C15: a persistence failure is surfaced as it is.  In a pass that calls the
status writer, that call is the last call of the pass and the only call of the
status writer, it is made for the status the pass ends with, and the pass
returns exactly what the call returned.  This is so at each of the three
places: after the name commit, after the reset on disappearance, and after
the converged commit. -/
theorem C15_persist_error_as_is {W : Type} (env : Env W)
    (platformStatus : GCPPlatformStatus) (inst : S3Bucket) (w : W) :
    (∀ st : S3Bucket, Call.statusUpdate st ∈ (provisionStorage env platformStatus inst w).calls →
      ∃ (pre : List Call) (w1 : W),
        pre.countP Call.isStatusUpdate = 0 ∧
        (provisionStorage env platformStatus inst w).calls = pre ++ [Call.statusUpdate st] ∧
        (provisionStorage env platformStatus inst w).err = (env.statusUpdate st w1).1 ∧
        (provisionStorage env platformStatus inst w).world = (env.statusUpdate st w1).2 ∧
        (provisionStorage env platformStatus inst w).status = st) ∧
    (∀ (proposedName : String) (s1 s2 : Sys W),
      inst.Name = "" →
      generateBucketName env bucketPrefix ⟨w, []⟩ = (proposedName, s1) →
      DoesBucketExist env proposedName s1 = ((false, none), s2) →
      (provisionStorage env platformStatus inst w).err =
        (env.statusUpdate { inst with Name := proposedName, Provisioned := false } s2.world).1 ∧
      (provisionStorage env platformStatus inst w).calls =
        s2.calls ++ [Call.statusUpdate { inst with Name := proposedName, Provisioned := false }]) ∧
    (∀ (s1 s2 : Sys W),
      inst.Name ≠ "" →
      createStep env platformStatus inst ⟨w, []⟩ = (none, s1) →
      DoesBucketExist env inst.Name s1 = ((false, none), s2) →
      (provisionStorage env platformStatus inst w).err =
        (env.statusUpdate { inst with Provisioned := false } s2.world).1 ∧
      (provisionStorage env platformStatus inst w).calls =
        s2.calls ++ [Call.statusUpdate { inst with Provisioned := false }]) ∧
    (∀ (s1 s2 s3 s4 : Sys W) (bucketAttrs : BucketAttrs),
      inst.Name ≠ "" →
      createStep env platformStatus inst ⟨w, []⟩ = (none, s1) →
      DoesBucketExist env inst.Name s1 = ((true, none), s2) →
      Sys.Attrs env inst.Name s2 = (.ok bucketAttrs, s3) →
      enforceStep env inst bucketAttrs s3 = (none, s4) →
      (provisionStorage env platformStatus inst w).err =
        (env.statusUpdate
          { inst with Provisioned := true, LastSyncTimestamp := some (env.now s4.world).1 }
          (env.now s4.world).2).1 ∧
      (provisionStorage env platformStatus inst w).calls =
        s4.calls ++ [Call.statusUpdate
          { inst with Provisioned := true,
                      LastSyncTimestamp := some (env.now s4.world).1 }]) := by
  refine ⟨?_, ?_, ?_, ?_⟩
  · intro st hmem
    rcases provisionStorage_persist_last env platformStatus inst w with h0 |
      ⟨pre, w1, hpre, hcalls, herr, hworld⟩
    · exact absurd hmem (not_mem_of_countP_statusUpdate _ h0 st)
    · have hst : st = (provisionStorage env platformStatus inst w).status := by
        rw [hcalls] at hmem
        rcases List.mem_append.1 hmem with h | h
        · exact absurd h (not_mem_of_countP_statusUpdate _ hpre st)
        · simpa using h
      refine ⟨pre, w1, hpre, ?_, ?_, ?_, hst.symm⟩
      · rw [hst]; exact hcalls
      · rw [hst]; exact herr
      · rw [hst]; exact hworld
  · intro proposedName s1 s2 hname hgen hexists
    have hrun : provisionStorage env platformStatus inst w =
        { status := { inst with Name := proposedName, Provisioned := false },
          err := (env.statusUpdate
            { inst with Name := proposedName, Provisioned := false } s2.world).1,
          world := (env.statusUpdate
            { inst with Name := proposedName, Provisioned := false } s2.world).2,
          calls := s2.calls ++
            [Call.statusUpdate { inst with Name := proposedName, Provisioned := false }] } := by
      unfold provisionStorage
      simp only [hname, if_true, hgen, hexists, Sys.statusUpdate]
    rw [hrun]
    exact ⟨rfl, rfl⟩
  · intro s1 s2 hname hcreated hexists
    have hrun : provisionStorage env platformStatus inst w =
        { status := { inst with Provisioned := false },
          err := (env.statusUpdate { inst with Provisioned := false } s2.world).1,
          world := (env.statusUpdate { inst with Provisioned := false } s2.world).2,
          calls := s2.calls ++ [Call.statusUpdate { inst with Provisioned := false }] } := by
      unfold provisionStorage
      simp only [hname, if_false, hcreated, hexists, Sys.statusUpdate]
    rw [hrun]
    exact ⟨rfl, rfl⟩
  · intro s1 s2 s3 s4 bucketAttrs hname hcreated hexists hattrs henforce
    rw [provisionStorage_converged env platformStatus inst w s1 s2 s3 s4 bucketAttrs
      hname hcreated hexists hattrs henforce]
    exact ⟨rfl, rfl⟩

/-- C15 at concrete inputs: a status writer that fails with a conflict, at the
name commit, at the reset and at the converged commit. -/
theorem C15_persist_error_as_is_witness :
    (provisionStorage (fixedEnv "abc" (.error GoError.ErrBucketNotExist) none none
        (some (GoError.provider 409 "the object has been modified")) 7)
      gcpExample ⟨"", false, none⟩ ()).err =
      some (GoError.provider 409 "the object has been modified") ∧
    (provisionStorage (fixedEnv "abc" (.error GoError.ErrBucketNotExist) none none
        (some (GoError.provider 409 "the object has been modified")) 7)
      gcpExample ⟨"", false, none⟩ ()).calls =
      [Call.Attrs "managed-velero-backups-abc",
       Call.statusUpdate ⟨"managed-velero-backups-abc", false, none⟩] ∧
    (provisionStorage (fixedEnv "abc" (.error GoError.ErrBucketNotExist) none none
        (some (GoError.provider 409 "the object has been modified")) 7)
      gcpExample ⟨"b", true, some 3⟩ ()).err =
      some (GoError.provider 409 "the object has been modified") ∧
    (provisionStorage (fixedEnv "abc" (.ok ⟨"us-east1", true⟩) none none
        (some (GoError.provider 409 "the object has been modified")) 7)
      gcpExample ⟨"b", true, some 3⟩ ()).err =
      some (GoError.provider 409 "the object has been modified") :=
  have h1 := (C15_persist_error_as_is
    (fixedEnv "abc" (.error GoError.ErrBucketNotExist) none none
      (some (GoError.provider 409 "the object has been modified")) 7)
    gcpExample ⟨"", false, none⟩ ()).2.1 "managed-velero-backups-abc" ⟨(), []⟩
    ⟨(), [Call.Attrs "managed-velero-backups-abc"]⟩ rfl rfl rfl
  have h2 := (C15_persist_error_as_is
    (fixedEnv "abc" (.error GoError.ErrBucketNotExist) none none
      (some (GoError.provider 409 "the object has been modified")) 7)
    gcpExample ⟨"b", true, some 3⟩ ()).2.2.1 ⟨(), []⟩ ⟨(), [Call.Attrs "b"]⟩
    (by decide) rfl rfl
  have h3 := (C15_persist_error_as_is
    (fixedEnv "abc" (.ok ⟨"us-east1", true⟩) none none
      (some (GoError.provider 409 "the object has been modified")) 7)
    gcpExample ⟨"b", true, some 3⟩ ()).2.2.2 ⟨(), []⟩ ⟨(), [Call.Attrs "b"]⟩
    ⟨(), [Call.Attrs "b", Call.Attrs "b"]⟩ ⟨(), [Call.Attrs "b", Call.Attrs "b"]⟩
    ⟨"us-east1", true⟩ (by decide) rfl rfl rfl rfl
  ⟨h1.1, h1.2, h2.1, h3.1⟩

/-- The log after the creation block that starts a pass: empty, or the one
`Create` for the committed name when the status is not provisioned. -/
theorem createStep_calls_start {W : Type} (env : Env W)
    (platformStatus : GCPPlatformStatus) (inst : S3Bucket) (w : W) (s1 : Sys W)
    (r : Option GoError) (h : createStep env platformStatus inst ⟨w, []⟩ = (r, s1)) :
    (s1.calls = [] ∧ (r = none ∧ inst.Provisioned = true)) ∨
    (s1.calls = [Call.Create inst.Name platformStatus.ProjectID ⟨platformStatus.Region, true⟩] ∧
      inst.Provisioned = false) := by
  have hc := createStep_calls env platformStatus inst _ s1 r h
  by_cases hp : inst.Provisioned = false
  · right
    rw [hc]
    simp [hp, UniformBucketLevelAccessEnabled]
  · left
    have hr : r = none := by
      have := congrArg Prod.fst h
      unfold createStep at this
      rw [if_neg hp] at this
      exact this.symm
    rw [hc]
    simp [hp, hr]

/-- The log after the enforcement block: nothing more when the attributes
report uniform bucket-level access enabled, and then the block passes; the
one `Update` more when they report it disabled. -/
theorem enforceStep_calls_cases {W : Type} (env : Env W) (inst : S3Bucket)
    (bucketAttrs : BucketAttrs) (s s1 : Sys W) (r : Option GoError)
    (h : enforceStep env inst bucketAttrs s = (r, s1)) :
    (s1.calls = s.calls ∧ r = none) ∨
    s1.calls = s.calls ++ [Call.Update inst.Name ⟨some true⟩] := by
  have hc := enforceStep_calls env inst bucketAttrs s s1 r h
  by_cases hp : bucketAttrs.UniformBucketLevelAccess = false
  · right
    rw [hc]
    simp [hp, UniformBucketLevelAccessEnabled]
  · left
    have hr : r = none := by
      have := congrArg Prod.fst h
      unfold enforceStep at this
      rw [if_neg hp] at this
      exact this.symm
    rw [hc]
    simp [hp, hr]

/-- C16: the order of the calls within a pass.  The calls of every pass are,
in this order: at most one `Create`, for the committed name; at most one
lookup of the existence check; at most one attribute fetch, only after a check
on the committed name; at most one `Update`, only after the fetch; at most one
call of the status writer, the last call of the pass, and when it persists the
flag `Provisioned` set the fetch came before it.  A pass that starts without
a name issues no `Create`, no fetch and no `Update`, so a `Create` only
targets a name that the status had at the start of the pass. -/
theorem C16_call_order {W : Type} (env : Env W)
    (platformStatus : GCPPlatformStatus) (inst : S3Bucket) (w : W) :
    ∃ c v f u p : List Call,
      (provisionStorage env platformStatus inst w).calls = c ++ v ++ f ++ u ++ p ∧
      (c = [] ∨
        (c = [Call.Create inst.Name platformStatus.ProjectID ⟨platformStatus.Region, true⟩] ∧
          inst.Name ≠ "" ∧ inst.Provisioned = false)) ∧
      (v = [] ∨ (v = [Call.Attrs inst.Name] ∧ inst.Name ≠ "") ∨
        (inst.Name = "" ∧ ∃ proposedName, v = [Call.Attrs proposedName])) ∧
      (f = [] ∨ (f = [Call.Attrs inst.Name] ∧ v = [Call.Attrs inst.Name])) ∧
      (u = [] ∨ (u = [Call.Update inst.Name ⟨some true⟩] ∧ f = [Call.Attrs inst.Name])) ∧
      (p = [] ∨
        (p = [Call.statusUpdate (provisionStorage env platformStatus inst w).status] ∧
          v ≠ [] ∧
          ((provisionStorage env platformStatus inst w).status.Provisioned = true →
            f = [Call.Attrs inst.Name]))) ∧
      (inst.Name = "" → c = [] ∧ f = [] ∧ u = []) := by
  rcases provisionStorage_paths env platformStatus inst w with
    ⟨hname, cand, s1, s2, hgen, h⟩ | ⟨hname, s1, h⟩
  · have h1 : s1.calls = [] := generateBucketName_calls env _ _ s1 cand hgen
    rcases h with ⟨b, e, hd, hr⟩ | ⟨hd, hr⟩ | ⟨hd, hr⟩
    · have h2 := DoesBucketExist_calls env cand s1 s2 _ hd
      refine ⟨[], [Call.Attrs cand], [], [], [], ?_, Or.inl rfl, Or.inr (Or.inr ⟨hname, cand, rfl⟩),
        Or.inl rfl, Or.inl rfl, Or.inl rfl, fun _ => ⟨rfl, rfl, rfl⟩⟩
      rw [hr]; simp [h2, h1]
    · have h2 := DoesBucketExist_calls env cand s1 s2 _ hd
      refine ⟨[], [Call.Attrs cand], [], [], [], ?_, Or.inl rfl, Or.inr (Or.inr ⟨hname, cand, rfl⟩),
        Or.inl rfl, Or.inl rfl, Or.inl rfl, fun _ => ⟨rfl, rfl, rfl⟩⟩
      rw [hr]; simp [h2, h1]
    · have h2 := DoesBucketExist_calls env cand s1 s2 _ hd
      refine ⟨[], [Call.Attrs cand], [], [],
        [Call.statusUpdate (provisionStorage env platformStatus inst w).status], ?_,
        Or.inl rfl, Or.inr (Or.inr ⟨hname, cand, rfl⟩), Or.inl rfl, Or.inl rfl,
        Or.inr ⟨rfl, by simp, ?_⟩, fun _ => ⟨rfl, rfl, rfl⟩⟩
      · rw [hr]; simp [h2, h1]
      · rw [hr]; intro h; cases h
  · have hcr : ∀ r, createStep env platformStatus inst ⟨w, []⟩ = (r, s1) →
        (s1.calls = [] ∨
          (s1.calls = [Call.Create inst.Name platformStatus.ProjectID
              ⟨platformStatus.Region, true⟩] ∧ inst.Name ≠ "" ∧ inst.Provisioned = false)) := by
      intro r hc
      rcases createStep_calls_start env platformStatus inst w s1 r hc with h | h
      · exact Or.inl h.1
      · exact Or.inr ⟨h.1, hname, h.2⟩
    have hn : inst.Name = "" → s1.calls = [] ∧ ([] : List Call) = [] ∧ ([] : List Call) = [] :=
      fun h => absurd h hname
    rcases h with ⟨e, hc, hr⟩ | ⟨hc, s2, h⟩
    · refine ⟨s1.calls, [], [], [], [], ?_, hcr _ hc, Or.inl rfl, Or.inl rfl, Or.inl rfl,
        Or.inl rfl, hn⟩
      rw [hr]; simp
    · rcases h with ⟨b, e, hd, hr⟩ | ⟨hd, hr⟩ | ⟨hd, s3, h⟩
      · have h2 := DoesBucketExist_calls env inst.Name s1 s2 _ hd
        refine ⟨s1.calls, [Call.Attrs inst.Name], [], [], [], ?_, hcr _ hc,
          Or.inr (Or.inl ⟨rfl, hname⟩), Or.inl rfl, Or.inl rfl, Or.inl rfl, hn⟩
        rw [hr]; simp [h2]
      · have h2 := DoesBucketExist_calls env inst.Name s1 s2 _ hd
        refine ⟨s1.calls, [Call.Attrs inst.Name], [], [],
          [Call.statusUpdate (provisionStorage env platformStatus inst w).status], ?_, hcr _ hc,
          Or.inr (Or.inl ⟨rfl, hname⟩), Or.inl rfl, Or.inl rfl, Or.inr ⟨rfl, by simp, ?_⟩, hn⟩
        · rw [hr]; simp [h2]
        · rw [hr]; intro h; cases h
      · have h2 := DoesBucketExist_calls env inst.Name s1 s2 _ hd
        rcases h with ⟨e, ha, hr⟩ | ⟨bucketAttrs, s4, ha, h⟩
        · have h3 := Sys.Attrs_calls env inst.Name s2 s3 _ ha
          refine ⟨s1.calls, [Call.Attrs inst.Name], [Call.Attrs inst.Name], [], [], ?_,
            hcr _ hc, Or.inr (Or.inl ⟨rfl, hname⟩), Or.inr ⟨rfl, rfl⟩, Or.inl rfl, Or.inl rfl,
            fun h => absurd h hname⟩
          rw [hr]; simp [h3, h2]
        · have h3 := Sys.Attrs_calls env inst.Name s2 s3 _ ha
          rcases h with ⟨e, he, hr⟩ | ⟨he, hr⟩
          · rcases enforceStep_calls_cases env inst bucketAttrs s3 s4 _ he with h4 | h4
            · exact absurd h4.2 (by simp)
            · refine ⟨s1.calls, [Call.Attrs inst.Name], [Call.Attrs inst.Name],
                [Call.Update inst.Name ⟨some true⟩], [], ?_, hcr _ hc,
                Or.inr (Or.inl ⟨rfl, hname⟩), Or.inr ⟨rfl, rfl⟩, Or.inr ⟨rfl, rfl⟩, Or.inl rfl,
                fun h => absurd h hname⟩
              rw [hr]; simp [h4, h3, h2]
          · rcases enforceStep_calls_cases env inst bucketAttrs s3 s4 _ he with h4 | h4
            · refine ⟨s1.calls, [Call.Attrs inst.Name], [Call.Attrs inst.Name], [],
                [Call.statusUpdate (provisionStorage env platformStatus inst w).status], ?_,
                hcr _ hc, Or.inr (Or.inl ⟨rfl, hname⟩), Or.inr ⟨rfl, rfl⟩, Or.inl rfl,
                Or.inr ⟨rfl, by simp, fun _ => rfl⟩, fun h => absurd h hname⟩
              rw [hr]; simp [h4.1, h3, h2]
            · refine ⟨s1.calls, [Call.Attrs inst.Name], [Call.Attrs inst.Name],
                [Call.Update inst.Name ⟨some true⟩],
                [Call.statusUpdate (provisionStorage env platformStatus inst w).status], ?_,
                hcr _ hc, Or.inr (Or.inl ⟨rfl, hname⟩), Or.inr ⟨rfl, rfl⟩, Or.inr ⟨rfl, rfl⟩,
                Or.inr ⟨rfl, by simp, fun _ => rfl⟩, fun h => absurd h hname⟩
              rw [hr]; simp [h4, h3, h2]

/-- C16 at a concrete input: from the status `b`, not provisioned, with a
provider that reports the hardening disabled, the pass makes all five kinds of
call, in the order of the theorem. -/
theorem C16_call_order_witness :
    (provisionStorage (fixedEnv "abc" (.ok ⟨"us-east1", false⟩) none none none 7)
      gcpExample ⟨"b", false, none⟩ ()).calls =
      [Call.Create "b" "proj" ⟨"us-east1", true⟩, Call.Attrs "b", Call.Attrs "b",
       Call.Update "b" ⟨some true⟩, Call.statusUpdate ⟨"b", true, some 7⟩] ∧
    ∃ c v f u p : List Call,
      (provisionStorage (fixedEnv "abc" (.ok ⟨"us-east1", false⟩) none none none 7)
        gcpExample ⟨"b", false, none⟩ ()).calls = c ++ v ++ f ++ u ++ p ∧
      (c = [] ∨ c = [Call.Create "b" "proj" ⟨"us-east1", true⟩]) ∧
      (f = [] ∨ f = [Call.Attrs "b"]) ∧
      (u = [] ∨ u = [Call.Update "b" ⟨some true⟩]) := by
  refine ⟨rfl, ?_⟩
  obtain ⟨c, v, f, u, p, h, hc, _, hf, hu, _, _⟩ := C16_call_order
    (fixedEnv "abc" (.ok ⟨"us-east1", false⟩) none none none 7) gcpExample ⟨"b", false, none⟩ ()
  refine ⟨c, v, f, u, p, h, ?_, ?_, ?_⟩
  · rcases hc with h | h
    · exact Or.inl h
    · exact Or.inr h.1
  · rcases hf with h | h
    · exact Or.inl h
    · exact Or.inr h.1
  · rcases hu with h | h
    · exact Or.inl h
    · exact Or.inr h.1

/-- A text that is built around a name contains the name. -/
theorem mentions_append (pre name post : String) : mentions (pre ++ name ++ post) name := by
  unfold mentions
  exact ⟨pre.data, post.data, by simp⟩

/-- The five failure paths that wrap the error: the name collision, the
creation, the verifying check, the attribute fetch and the enforcement.  On
each of them the text of the returned error contains the name of the bucket,
the proposed one for the collision and the committed one for the others. -/
theorem provisionStorage_wrapped_errors {W : Type} (env : Env W)
    (platformStatus : GCPPlatformStatus) (inst : S3Bucket) (w : W) :
    (∀ (proposedName : String) (s1 s2 : Sys W),
      inst.Name = "" →
      generateBucketName env bucketPrefix ⟨w, []⟩ = (proposedName, s1) →
      DoesBucketExist env proposedName s1 = ((true, none), s2) →
      ∃ e, (provisionStorage env platformStatus inst w).err = some e ∧
        mentions e.Error proposedName) ∧
    (inst.Name ≠ "" →
      ∀ e, (provisionStorage env platformStatus inst w).err = some e →
        (∀ st, Call.statusUpdate st ∉ (provisionStorage env platformStatus inst w).calls) →
        mentions e.Error inst.Name) := by
  constructor
  · intro proposedName s1 s2 hname hgen hexists
    refine ⟨GoError.errorf ("proposed bucket " ++ proposedName ++ " already exists, retrying"),
      ?_, mentions_append _ _ _⟩
    unfold provisionStorage
    simp only [hname, if_true, hgen, hexists]
  · intro hname e herr hno
    rcases provisionStorage_paths env platformStatus inst w with
      ⟨h0, _⟩ | ⟨_, s1, h⟩
    · exact absurd h0 hname
    · rcases h with ⟨e1, hc, hr⟩ | ⟨hc, s2, h⟩
      · rw [hr] at herr
        simp only [Option.some.injEq] at herr
        subst herr
        simpa [GoError.Error, String.append_assoc] using
          mentions_append "error occurred when creating bucket " inst.Name (": " ++ e1.Error)
      · rcases h with ⟨b, e1, hd, hr⟩ | ⟨hd, hr⟩ | ⟨hd, s3, h⟩
        · rw [hr] at herr
          simp only [Option.some.injEq] at herr
          subst herr
          simpa [GoError.Error, String.append_assoc] using
            mentions_append "error occurred when verifying bucket " inst.Name (": " ++ e1.Error)
        · rw [hr] at hno
          exact absurd (by simp) (hno { inst with Provisioned := false })
        · rcases h with ⟨e1, ha, hr⟩ | ⟨bucketAttrs, s4, ha, h⟩
          · rw [hr] at herr
            simp only [Option.some.injEq] at herr
            subst herr
            simpa [GoError.Error, String.append_assoc] using
              mentions_append "error occurred when retrieving bucket attributes " inst.Name
                (": " ++ e1.Error)
          · rcases h with ⟨e1, he, hr⟩ | ⟨he, hr⟩
            · rw [hr] at herr
              simp only [Option.some.injEq] at herr
              subst herr
              simpa [GoError.Error, String.append_assoc] using
                mentions_append "error occurred when enforcing UniformBucketLevelAccess to bucket "
                  inst.Name (": " ++ e1.Error)
            · rw [hr] at hno
              exact absurd (by simp)
                (hno ⟨inst.Name, true, some (env.now s4.world).1⟩)

/-- C17 fails on the code at this input: the status has no name, the random
source gives the token `abc`, and the lookup of the existence check on the
proposed name `managed-velero-backups-abc` fails with a backend error.  The
pass returns the error of the lookup as it is, and its text does not contain
the name of the bucket. -/
theorem C17_check_error_not_wrapped :
    (provisionStorage
      (fixedEnv "abc" (.error (GoError.provider 503 "googleapi: Error 503: Backend Error"))
        none none none 7)
      gcpExample ⟨"", false, none⟩ ()).calls = [Call.Attrs "managed-velero-backups-abc"] ∧
    (provisionStorage
      (fixedEnv "abc" (.error (GoError.provider 503 "googleapi: Error 503: Backend Error"))
        none none none 7)
      gcpExample ⟨"", false, none⟩ ()).err =
      some (GoError.provider 503 "googleapi: Error 503: Backend Error") ∧
    (GoError.provider 503 "googleapi: Error 503: Backend Error").Error =
      "googleapi: Error 503: Backend Error" ∧
    ¬ mentions (GoError.provider 503 "googleapi: Error 503: Backend Error").Error
      "managed-velero-backups-abc" := by
  refine ⟨rfl, rfl, rfl, ?_⟩
  decide

/-- The characters of a canonical token, by position. -/
theorem isCanonicalUUID_chars (token : String) (h : isCanonicalUUID token = true) :
    token.data.length = 36 ∧
    ∀ (i : Nat) (hi : i < token.data.length),
      token.data[i] = '-' ∨ isLowerHex token.data[i] = true := by
  unfold isCanonicalUUID at h
  simp only [Bool.and_eq_true, beq_iff_eq, List.all_eq_true, List.mem_range] at h
  obtain ⟨hlen, hall⟩ := h
  refine ⟨hlen, fun i hi => ?_⟩
  have := hall i (by omega)
  rw [List.getD_eq_getElem _ _ hi] at this
  by_cases hpos : i = 8 ∨ i = 13 ∨ i = 18 ∨ i = 23
  · rw [if_pos hpos] at this
    left
    simpa using this
  · rw [if_neg hpos] at this
    right
    exact this

/-- The last character of a canonical token is a hexadecimal digit. -/
theorem isCanonicalUUID_last (token : String) (h : isCanonicalUUID token = true) :
    ∃ c, token.data.getLast? = some c ∧ isLowerHex c = true := by
  have hlen := (isCanonicalUUID_chars token h).1
  unfold isCanonicalUUID at h
  simp only [Bool.and_eq_true, beq_iff_eq, List.all_eq_true, List.mem_range] at h
  have h35 := h.2 35 (by omega)
  rw [List.getD_eq_getElem _ _ (by omega : 35 < token.data.length)] at h35
  simp only [show ¬ ((35 : Nat) = 8 ∨ (35 : Nat) = 13 ∨ (35 : Nat) = 18 ∨ (35 : Nat) = 23) by omega,
    if_false] at h35
  refine ⟨token.data[35], ?_, h35⟩
  rw [List.getLast?_eq_getElem?]
  have h1 : token.data.length - 1 = 35 := by omega
  simp only [h1]
  exact List.getElem?_eq_getElem (by omega)

/-- A hexadecimal digit is a lowercase letter or a digit. -/
theorem isLowerHex_alnum (c : Char) (h : isLowerHex c = true) :
    isLowerLetter c = true ∨ isDigitChar c = true := by
  unfold isLowerHex at h
  simp only [Bool.or_eq_true, Bool.and_eq_true, decide_eq_true_eq] at h
  rcases h with h | h
  · exact Or.inr h
  · left
    unfold isLowerLetter
    simp only [Bool.and_eq_true, decide_eq_true_eq]
    omega

/-- C18: generated names are valid bucket names.  For a token in the canonical
textual form of a UUID, `generateBucketName` with the constant prefix gives a
name of exactly 59 characters, within the limits 3 and 63, made of lowercase
letters, digits and hyphens only, that begins with a letter and ends with a
letter or a digit; and a different token gives a different name. -/
theorem C18_generated_name_valid {W : Type} (env : Env W) (s : Sys W)
    (hcanon : isCanonicalUUID (env.uuidNew s.world).1 = true) :
    (generateBucketName env bucketPrefix s).1 =
      "managed-velero-backups-" ++ (env.uuidNew s.world).1 ∧
    (generateBucketName env bucketPrefix s).1.length = 59 ∧
    3 ≤ (generateBucketName env bucketPrefix s).1.length ∧
    (generateBucketName env bucketPrefix s).1.length ≤ 63 ∧
    (∀ c ∈ (generateBucketName env bucketPrefix s).1.data,
      isLowerLetter c = true ∨ isDigitChar c = true ∨ c = '-') ∧
    (∃ c, (generateBucketName env bucketPrefix s).1.data.head? = some c ∧
      isLowerLetter c = true) ∧
    (∃ c, (generateBucketName env bucketPrefix s).1.data.getLast? = some c ∧
      (isLowerLetter c = true ∨ isDigitChar c = true)) ∧
    (∀ {W2 : Type} (env2 : Env W2) (s2 : Sys W2),
      (env2.uuidNew s2.world).1 ≠ (env.uuidNew s.world).1 →
      (generateBucketName env2 bucketPrefix s2).1 ≠ (generateBucketName env bucketPrefix s).1) := by
  obtain ⟨hlen, hchars⟩ := isCanonicalUUID_chars _ hcanon
  have hdata : (generateBucketName env bucketPrefix s).1.data =
      "managed-velero-backups-".data ++ (env.uuidNew s.world).1.data := by
    simp [generateBucketName, bucketPrefix]
  have hl : (generateBucketName env bucketPrefix s).1.length = 59 := by
    show (generateBucketName env bucketPrefix s).1.data.length = 59
    rw [hdata, List.length_append, hlen]
    rfl
  have hne : (env.uuidNew s.world).1.data ≠ [] := by
    intro h0
    rw [h0] at hlen
    simp at hlen
  refine ⟨rfl, hl, by omega, by omega, ?_, ?_, ?_, ?_⟩
  · intro c hc
    rw [hdata] at hc
    rcases List.mem_append.1 hc with h | h
    · have hp : ∀ c ∈ "managed-velero-backups-".data,
          isLowerLetter c = true ∨ isDigitChar c = true ∨ c = '-' := by decide
      exact hp c h
    · obtain ⟨i, hi, rfl⟩ := List.getElem_of_mem h
      rcases hchars i hi with h1 | h1
      · exact Or.inr (Or.inr h1)
      · rcases isLowerHex_alnum _ h1 with h2 | h2
        · exact Or.inl h2
        · exact Or.inr (Or.inl h2)
  · refine ⟨'m', ?_, by decide⟩
    rw [hdata]
    rfl
  · obtain ⟨c, hc, hx⟩ := isCanonicalUUID_last _ hcanon
    refine ⟨c, ?_, isLowerHex_alnum c hx⟩
    rw [hdata, List.getLast?_append_of_ne_nil _ hne]
    exact hc
  · intro W2 env2 s2 hne2 heq
    apply hne2
    simp only [generateBucketName] at heq
    have := congrArg String.data heq
    simp only [String.data_append] at this
    exact String.ext (List.append_cancel_left this)

/-- C18 at a concrete token in the canonical form. -/
theorem C18_generated_name_valid_witness :
    isCanonicalUUID "123e4567-e89b-42d3-a456-426614174000" = true ∧
    (generateBucketName
      (fixedEnv "123e4567-e89b-42d3-a456-426614174000" (.error GoError.ErrBucketNotExist)
        none none none 7) bucketPrefix ⟨(), []⟩).1 =
      "managed-velero-backups-123e4567-e89b-42d3-a456-426614174000" ∧
    (generateBucketName
      (fixedEnv "123e4567-e89b-42d3-a456-426614174000" (.error GoError.ErrBucketNotExist)
        none none none 7) bucketPrefix ⟨(), []⟩).1.length = 59 :=
  have h := C18_generated_name_valid
    (fixedEnv "123e4567-e89b-42d3-a456-426614174000" (.error GoError.ErrBucketNotExist)
      none none none 7) ⟨(), []⟩ (by decide)
  ⟨by decide, h.1, h.2.1⟩

end Velero
